import Mathlib

/-!
Shallow embedding of the synacor virtual machine from the Go package
`github.com/bdwalton/synacor/synacor` (the complete implementation; the
repository also holds an obsolete partial variant that is out of scope).

Machine words are Go `uint16` values, embedded as `Nat` with explicit
`% 65536` wherever the 16-bit arithmetic can wrap.  Go slice indexing
panics when the index is out of bounds; those accesses are embedded as
`Option`-returning operations, and `Machine.Step` returns `none` exactly
when the Go `Step` would panic.  The terminal character sink is embedded
as the list `out` of emitted code points; the terminal character source
as a list `input` of remaining lines (each line a list of rune code
points, including its terminating newline, as delivered by
`bufio.Reader.ReadString`).  The diagnostic messages printed by
`Machine.Error` go to the process log, not to the character sink, and are
not modelled.
-/

namespace Synacor

/-- Go constant `NREGS = 8`: number of registers. -/
def NREGS : Nat := 8

/-- Go constant `MAX_15BIT = 32767`: values are `0..MAX_15BIT`. -/
def MAX_15BIT : Nat := 32767

/-- Go constant `OVERFLOW_15BIT = 32768`. -/
def OVERFLOW_15BIT : Nat := 32768

/-- Go constant `MAX_REG = MAX_15BIT + 8`: indirect register references. -/
def MAX_REG : Nat := MAX_15BIT + 8

/-- CPU state `RUNNING` (Go iota 0). -/
def RUNNING : Nat := 0

/-- CPU state `HALTED` (Go iota 1): normal halt. -/
def HALTED : Nat := 1

/-- CPU state `ERROR` (Go iota 2): halted in error state. -/
def ERROR : Nat := 2

/-- Opcode `HALT = 0`. -/
def HALT : Nat := 0
/-- Opcode `SET = 1`. -/
def SET : Nat := 1
/-- Opcode `PUSH = 2`. -/
def PUSH : Nat := 2
/-- Opcode `POP = 3`. -/
def POP : Nat := 3
/-- Opcode `EQ = 4`. -/
def EQ : Nat := 4
/-- Opcode `GT = 5`. -/
def GT : Nat := 5
/-- Opcode `JMP = 6`. -/
def JMP : Nat := 6
/-- Opcode `JT = 7`. -/
def JT : Nat := 7
/-- Opcode `JF = 8`. -/
def JF : Nat := 8
/-- Opcode `ADD = 9`. -/
def ADD : Nat := 9
/-- Opcode `MULT = 10`. -/
def MULT : Nat := 10
/-- Opcode `MOD = 11`. -/
def MOD : Nat := 11
/-- Opcode `AND = 12`. -/
def AND : Nat := 12
/-- Opcode `OR = 13`. -/
def OR : Nat := 13
/-- Opcode `NOT = 14`. -/
def NOT : Nat := 14
/-- Opcode `RMEM = 15`. -/
def RMEM : Nat := 15
/-- Opcode `WMEM = 16`. -/
def WMEM : Nat := 16
/-- Opcode `CALL = 17`. -/
def CALL : Nat := 17
/-- Opcode `RET = 18`. -/
def RET : Nat := 18
/-- Opcode `OUT = 19`. -/
def OUT : Nat := 19
/-- Opcode `IN = 20`. -/
def IN : Nat := 20
/-- Opcode `NOOP = 21`. -/
def NOOP : Nat := 21

/-- Go map `argsForOp`: the number of arguments expected for each OP.
A Go map lookup on a missing key yields the zero value `0`. -/
def argsForOp (op : Nat) : Nat :=
  match op with
  | 0 => 0   -- HALT
  | 1 => 2   -- SET
  | 2 => 1   -- PUSH
  | 3 => 1   -- POP
  | 4 => 3   -- EQ
  | 5 => 3   -- GT
  | 6 => 1   -- JMP
  | 7 => 2   -- JT
  | 8 => 2   -- JF
  | 9 => 3   -- ADD
  | 10 => 3  -- MULT
  | 11 => 3  -- MOD
  | 12 => 3  -- AND
  | 13 => 3  -- OR
  | 14 => 2  -- NOT
  | 15 => 2  -- RMEM
  | 16 => 2  -- WMEM
  | 17 => 1  -- CALL
  | 18 => 0  -- RET
  | 19 => 1  -- OUT
  | 20 => 1  -- IN
  | 21 => 0  -- NOOP
  | _ => 0

/-- Go `func isReg(arg uint16) bool { return MAX_15BIT < arg && arg <= MAX_REG }`. -/
def isReg (arg : Nat) : Bool :=
  decide (MAX_15BIT < arg ∧ arg ≤ MAX_REG)

/-- Go `func isValue(arg uint16) bool { return arg <= MAX_15BIT }`. -/
def isValue (arg : Nat) : Bool :=
  decide (arg ≤ MAX_15BIT)

/-- Go `func decipherReg(arg uint16) uint16 { return arg - MAX_15BIT - 1 }`:
`uint16` subtraction wraps modulo 2^16, so `arg - 32768` is embedded as
`(arg + 32768) % 65536` (the two agree modulo 2^16 for `arg < 65536`). -/
def decipherReg (arg : Nat) : Nat :=
  (arg + 32768) % 65536

/-- Write `v` at index `i` of a Go slice: panics (`none`) when `i` is out
of bounds, otherwise the updated slice. -/
def setCell (l : List Nat) (i v : Nat) : Option (List Nat) :=
  if i < l.length then some (l.set i v) else none

/-- The machine state.  `stack` holds the LIFO contents with the top at
the head (the Go `Stack` stores the same sequence in a slice with the
top at the end); `input` and `out` embed the terminal, `unused_input`
is the field of the same name. -/
structure Machine where
  memory : List Nat
  regs : List Nat
  pc : Nat
  stack : List Nat
  state : Nat
  input : List (List Nat)
  unused_input : List Nat
  out : List Nat
deriving Repr, DecidableEq

/-- Go `NewMachine`: 32768 zeroed memory words with `prog` copied over the
front (`copy` transfers `min (len prog) 32768` words), 8 zeroed registers,
empty stack, `pc = 0`, state `RUNNING`, stdin as the input source. -/
def NewMachine (prog : List Nat) (stdin : List (List Nat)) : Machine :=
  { memory := prog.take 32768 ++ List.replicate (32768 - prog.length) 0
    regs := List.replicate NREGS 0
    pc := 0
    stack := []
    state := RUNNING
    input := stdin
    unused_input := []
    out := [] }

/-- Go `func (m *Machine) Halted() bool { return m.state != RUNNING }`. -/
def Machine.Halted (m : Machine) : Bool :=
  decide (m.state ≠ RUNNING)

/-- Go `Machine.Error`: log the error message and halt the machine in the
`ERROR` state (the message goes to the log, not the character sink). -/
def Machine.Error (m : Machine) : Machine :=
  { m with state := ERROR }

/-- Go `Machine.Halt`: halt the machine. -/
def Machine.Halt (m : Machine) : Machine :=
  { m with state := HALTED }

/-- Go `Machine.readArg`: a word `<= MAX_15BIT` is a literal value; a word
in `(MAX_15BIT, MAX_REG]` reads the referenced register; anything larger
calls `m.Error` and yields `0`.  The possibly-errored machine is returned
alongside the value. -/
def Machine.readArg (m : Machine) (arg : Nat) : Nat × Machine :=
  if isValue arg then
    (arg, m)
  else if isReg arg then
    (m.regs.getD (decipherReg arg) 0, m)
  else
    (0, m.Error)

/-- Go `Machine.getArgs`: the slice `m.memory[m.pc+1 : m.pc+1+n]` for
`n = argsForOp op` when `n > 0`, else the empty slice.  Go slicing panics
(`none`) when the upper bound exceeds the slice length.  (`Step` has
already read `m.memory[m.pc]`, so `m.pc < 2^15` here and the `uint16`
additions cannot wrap.) -/
def Machine.getArgs (m : Machine) (op : Nat) : Option (List Nat) :=
  let n := argsForOp op
  if n > 0 then
    if m.pc + 1 + n ≤ m.memory.length then
      some ((m.memory.drop (m.pc + 1)).take n)
    else
      none
  else
    some []

/-- Go `Machine.nextProgramCounter`: move over the OP and the number of
args for the OP (`uint16` addition). -/
def Machine.nextProgramCounter (m : Machine) (op : Nat) : Nat :=
  (m.pc + 1 + argsForOp op) % 65536

/-- The `uint16` expression `(b + c) % OVERFLOW_15BIT` from the `ADD`
case of `Machine.Step`: the addition wraps modulo 2^16 first. -/
def addWord (b c : Nat) : Nat :=
  ((b + c) % 65536) % OVERFLOW_15BIT

/-- The `uint16` expression `(b * c) % OVERFLOW_15BIT` from the `MULT`
case of `Machine.Step`: the multiplication wraps modulo 2^16 first. -/
def multWord (b c : Nat) : Nat :=
  ((b * c) % 65536) % OVERFLOW_15BIT

/-- Write `v` to the destination denoted by the raw word `dst`, as the
`POP`/`EQ`/`GT`/`ADD`/`MULT`/`MOD`/`AND`/`OR`/`NOT` cases of `Step` do:
`if isReg(args[0]) { m.regs[decipherReg(args[0])] = v } else
{ m.memory[args[0]] = v }`. -/
def Machine.writeDest (m : Machine) (dst v : Nat) : Option Machine :=
  if isReg dst then do
    let regs ← setCell m.regs (decipherReg dst) v
    some { m with regs := regs }
  else do
    let memory ← setCell m.memory dst v
    some { m with memory := memory }

/-- The `case SET:` arm of the Go `Step` switch. -/
def Machine.doSET (m : Machine) (args : List Nat) : Option Machine := do
  let a0 ← args.get? 0
  let a1 ← args.get? 1
  let (v, m1) := m.readArg a1
  let regs ← setCell m1.regs (decipherReg a0) v
  some { m1 with regs := regs, pc := m1.nextProgramCounter 1 }

/-- The `case PUSH:` arm of the Go `Step` switch. -/
def Machine.doPUSH (m : Machine) (args : List Nat) : Option Machine := do
  let a0 ← args.get? 0
  let (v, m1) := m.readArg a0
  some { m1 with stack := v :: m1.stack, pc := m1.nextProgramCounter 2 }

/-- The `case POP:` arm of the Go `Step` switch: empty stack is an error
(and the arm returns without advancing `pc`). -/
def Machine.doPOP (m : Machine) (args : List Nat) : Option Machine := do
  let a0 ← args.get? 0
  match m.stack with
  | [] => some m.Error
  | v :: rest => do
    let m1 ← Machine.writeDest { m with stack := rest } a0 v
    some { m1 with pc := m1.nextProgramCounter 3 }

/-- The `case EQ:` arm of the Go `Step` switch. -/
def Machine.doEQ (m : Machine) (args : List Nat) : Option Machine := do
  let a0 ← args.get? 0
  let a1 ← args.get? 1
  let a2 ← args.get? 2
  let (b, m1) := m.readArg a1
  let (c, m2) := m1.readArg a2
  let eq : Nat := if b = c then 1 else 0
  let m3 ← m2.writeDest a0 eq
  some { m3 with pc := m3.nextProgramCounter 4 }

/-- The `case GT:` arm of the Go `Step` switch. -/
def Machine.doGT (m : Machine) (args : List Nat) : Option Machine := do
  let a0 ← args.get? 0
  let a1 ← args.get? 1
  let a2 ← args.get? 2
  let (b, m1) := m.readArg a1
  let (c, m2) := m1.readArg a2
  let gt : Nat := if b > c then 1 else 0
  let m3 ← m2.writeDest a0 gt
  some { m3 with pc := m3.nextProgramCounter 5 }

/-- The `case JMP:` arm of the Go `Step` switch. -/
def Machine.doJMP (m : Machine) (args : List Nat) : Option Machine := do
  let a0 ← args.get? 0
  let (v, m1) := m.readArg a0
  some { m1 with pc := v }

/-- The `case JT:` arm of the Go `Step` switch. -/
def Machine.doJT (m : Machine) (args : List Nat) : Option Machine := do
  let a0 ← args.get? 0
  let a1 ← args.get? 1
  let (a, m1) := m.readArg a0
  if a ≠ 0 then
    let (b, m2) := m1.readArg a1
    some { m2 with pc := b }
  else
    some { m1 with pc := m1.nextProgramCounter 7 }

/-- The `case JF:` arm of the Go `Step` switch. -/
def Machine.doJF (m : Machine) (args : List Nat) : Option Machine := do
  let a0 ← args.get? 0
  let a1 ← args.get? 1
  let (a, m1) := m.readArg a0
  if a = 0 then
    let (b, m2) := m1.readArg a1
    some { m2 with pc := b }
  else
    some { m1 with pc := m1.nextProgramCounter 8 }

/-- The `case ADD:` arm of the Go `Step` switch. -/
def Machine.doADD (m : Machine) (args : List Nat) : Option Machine := do
  let a0 ← args.get? 0
  let a1 ← args.get? 1
  let a2 ← args.get? 2
  let (b, m1) := m.readArg a1
  let (c, m2) := m1.readArg a2
  let m3 ← m2.writeDest a0 (addWord b c)
  some { m3 with pc := m3.nextProgramCounter 9 }

/-- The `case MULT:` arm of the Go `Step` switch. -/
def Machine.doMULT (m : Machine) (args : List Nat) : Option Machine := do
  let a0 ← args.get? 0
  let a1 ← args.get? 1
  let a2 ← args.get? 2
  let (b, m1) := m.readArg a1
  let (c, m2) := m1.readArg a2
  let m3 ← m2.writeDest a0 (multWord b c)
  some { m3 with pc := m3.nextProgramCounter 10 }

/-- The `case MOD:` arm of the Go `Step` switch (Go `b % c` panics when
`c = 0`). -/
def Machine.doMOD (m : Machine) (args : List Nat) : Option Machine := do
  let a0 ← args.get? 0
  let a1 ← args.get? 1
  let a2 ← args.get? 2
  let (b, m1) := m.readArg a1
  let (c, m2) := m1.readArg a2
  if c = 0 then
    none
  else
    let m3 ← m2.writeDest a0 (b % c)
    some { m3 with pc := m3.nextProgramCounter 11 }

/-- The `case AND:` arm of the Go `Step` switch. -/
def Machine.doAND (m : Machine) (args : List Nat) : Option Machine := do
  let a0 ← args.get? 0
  let a1 ← args.get? 1
  let a2 ← args.get? 2
  let (b, m1) := m.readArg a1
  let (c, m2) := m1.readArg a2
  let m3 ← m2.writeDest a0 (b.land c)
  some { m3 with pc := m3.nextProgramCounter 12 }

/-- The `case OR:` arm of the Go `Step` switch. -/
def Machine.doOR (m : Machine) (args : List Nat) : Option Machine := do
  let a0 ← args.get? 0
  let a1 ← args.get? 1
  let a2 ← args.get? 2
  let (b, m1) := m.readArg a1
  let (c, m2) := m1.readArg a2
  let m3 ← m2.writeDest a0 (b.lor c)
  some { m3 with pc := m3.nextProgramCounter 13 }

/-- The `case NOT:` arm of the Go `Step` switch (`b ^ MAX_15BIT`). -/
def Machine.doNOT (m : Machine) (args : List Nat) : Option Machine := do
  let a0 ← args.get? 0
  let a1 ← args.get? 1
  let (b, m1) := m.readArg a1
  let m2 ← m1.writeDest a0 (b.xor MAX_15BIT)
  some { m2 with pc := m2.nextProgramCounter 14 }

/-- The `case RMEM:` arm of the Go `Step` switch:
`m.regs[decipherReg(args[0])] = m.memory[m.readArg(args[1])]`. -/
def Machine.doRMEM (m : Machine) (args : List Nat) : Option Machine := do
  let a0 ← args.get? 0
  let a1 ← args.get? 1
  let (bv, m1) := m.readArg a1
  let w ← m1.memory.get? bv
  let regs ← setCell m1.regs (decipherReg a0) w
  some { m1 with regs := regs, pc := m1.nextProgramCounter 15 }

/-- The `case WMEM:` arm of the Go `Step` switch:
`m.memory[m.readArg(args[0])] = m.readArg(args[1])`. -/
def Machine.doWMEM (m : Machine) (args : List Nat) : Option Machine := do
  let a0 ← args.get? 0
  let a1 ← args.get? 1
  let (addr, m1) := m.readArg a0
  let (v, m2) := m1.readArg a1
  let memory ← setCell m2.memory addr v
  some { m2 with memory := memory, pc := m2.nextProgramCounter 16 }

/-- The `case CALL:` arm of the Go `Step` switch: the next program counter
is pushed first, then `pc` is set to the resolved operand. -/
def Machine.doCALL (m : Machine) (args : List Nat) : Option Machine := do
  let a0 ← args.get? 0
  let m1 := { m with stack := m.nextProgramCounter 17 :: m.stack }
  let (v, m2) := m1.readArg a0
  some { m2 with pc := v }

/-- The `case RET:` arm of the Go `Step` switch: pop into `pc`; on an
empty stack the arm calls `m.Error` (and returns without advancing `pc`). -/
def Machine.doRET (m : Machine) : Option Machine :=
  match m.stack with
  | [] => some m.Error
  | npc :: rest => some { m with stack := rest, pc := npc }

/-- The `case OUT:` arm of the Go `Step` switch: `fmt.Printf("%c", ...)`
emits one character whose code point is the resolved operand value. -/
def Machine.doOUT (m : Machine) (args : List Nat) : Option Machine := do
  let a0 ← args.get? 0
  let (v, m1) := m.readArg a0
  some { m1 with out := m1.out ++ [v], pc := m1.nextProgramCounter 19 }

/-- The `case IN:` arm of the Go `Step` switch: refill `unused_input`
from one input line when empty, then read `unused_input[0]` (a panic,
`none`, when the buffer is still empty) and consume it. -/
def Machine.doIN (m : Machine) (args : List Nat) : Option Machine := do
  let a0 ← args.get? 0
  let buf :=
    if m.unused_input.isEmpty then
      (m.input.headD []).map (fun c => c % 65536)
    else
      m.unused_input
  let input1 :=
    if m.unused_input.isEmpty then m.input.tail else m.input
  let m1 := { m with unused_input := buf, input := input1 }
  let c ← buf.get? 0
  if isReg a0 then
    let regs ← setCell m1.regs (decipherReg a0) c
    let m2 := { m1 with regs := regs, unused_input := buf.drop 1 }
    some { m2 with pc := m2.nextProgramCounter 20 }
  else
    let (addr, m2) := m1.readArg a0
    let memory ← setCell m2.memory addr c
    let m3 := { m2 with memory := memory, unused_input := buf.drop 1 }
    some { m3 with pc := m3.nextProgramCounter 20 }

/-- The `default:` arm of the Go `Step` switch: log the unimplemented
instruction, transition to `ERROR`, and fall through to the `pc` update. -/
def Machine.doUNKNOWN (m : Machine) (op : Nat) : Option Machine :=
  let m1 := m.Error
  some { m1 with pc := m1.nextProgramCounter op }

/-- The body of the Go `Step` switch: dispatch on the opcode; each
`do<OP>` definition above is the corresponding `case` arm. -/
def Machine.stepCase (m : Machine) (op : Nat) (args : List Nat) : Option Machine :=
  match op with
  | 0 => some m.Halt
  | 1 => m.doSET args
  | 2 => m.doPUSH args
  | 3 => m.doPOP args
  | 4 => m.doEQ args
  | 5 => m.doGT args
  | 6 => m.doJMP args
  | 7 => m.doJT args
  | 8 => m.doJF args
  | 9 => m.doADD args
  | 10 => m.doMULT args
  | 11 => m.doMOD args
  | 12 => m.doAND args
  | 13 => m.doOR args
  | 14 => m.doNOT args
  | 15 => m.doRMEM args
  | 16 => m.doWMEM args
  | 17 => m.doCALL args
  | 18 => m.doRET
  | 19 => m.doOUT args
  | 20 => m.doIN args
  | 21 => some { m with pc := m.nextProgramCounter 21 }
  | _ => m.doUNKNOWN op

/-- Go `Machine.Step`: execute exactly one instruction.  Fetch the opcode
at `memory[pc]`, fetch its arguments, and run the switch.  `none` embeds
a Go runtime panic (out-of-bounds slice index, or `%` by zero in `MOD`). -/
def Machine.Step (m : Machine) : Option Machine := do
  let op ← m.memory.get? m.pc
  let args ← m.getArgs op
  m.stepCase op args

/-! ### Basic lemmas about the embedded helpers -/

theorem Error_memory (m : Machine) : m.Error.memory = m.memory := rfl

theorem Error_regs (m : Machine) : m.Error.regs = m.regs := rfl

theorem Error_pc (m : Machine) : m.Error.pc = m.pc := rfl

theorem Error_stack (m : Machine) : m.Error.stack = m.stack := rfl

theorem Error_state (m : Machine) : m.Error.state = ERROR := rfl

theorem isReg_iff (a : Nat) : isReg a = true ↔ 32768 ≤ a ∧ a ≤ 32775 := by
  simp [isReg, MAX_15BIT, MAX_REG]
  omega

theorem isValue_iff (a : Nat) : isValue a = true ↔ a ≤ 32767 := by
  simp [isValue, MAX_15BIT]

theorem decipherReg_of_isReg {a : Nat} (h : isReg a = true) :
    decipherReg a = a - 32768 := by
  rw [isReg_iff] at h
  unfold decipherReg
  omega

theorem decipherReg_lt_of_isReg {a : Nat} (h : isReg a = true) :
    decipherReg a < 8 := by
  rw [decipherReg_of_isReg h]
  rw [isReg_iff] at h
  omega

theorem decipherReg_of_low {a : Nat} (h : a ≤ 32767) :
    decipherReg a = a + 32768 := by
  unfold decipherReg
  omega

theorem readArg_of_isValue {a : Nat} (m : Machine) (h : isValue a = true) :
    m.readArg a = (a, m) := by
  unfold Machine.readArg
  rw [h]
  simp

theorem readArg_of_isReg {a : Nat} (m : Machine) (h : isReg a = true) :
    m.readArg a = (m.regs.getD (decipherReg a) 0, m) := by
  have hv : isValue a = false := by
    rw [isReg_iff] at h
    simp only [isValue, MAX_15BIT, decide_eq_false_iff_not]
    omega
  unfold Machine.readArg
  rw [hv, h]
  simp

theorem readArg_of_invalid {a : Nat} (m : Machine)
    (hv : isValue a = false) (hr : isReg a = false) :
    m.readArg a = (0, m.Error) := by
  unfold Machine.readArg
  rw [hv, hr]
  simp

theorem readArg_snd_cases (m : Machine) (a : Nat) :
    (m.readArg a).2 = m ∨ (m.readArg a).2 = m.Error := by
  unfold Machine.readArg
  by_cases hv : isValue a = true
  · rw [hv]; simp
  · rw [eq_false_of_ne_true hv]
    by_cases hr : isReg a = true
    · rw [hr]; simp
    · rw [eq_false_of_ne_true hr]; simp

theorem readArg_snd_memory (m : Machine) (a : Nat) :
    (m.readArg a).2.memory = m.memory := by
  rcases readArg_snd_cases m a with h | h <;> rw [h] <;> rfl

theorem readArg_snd_regs (m : Machine) (a : Nat) :
    (m.readArg a).2.regs = m.regs := by
  rcases readArg_snd_cases m a with h | h <;> rw [h] <;> rfl

theorem readArg_snd_pc (m : Machine) (a : Nat) :
    (m.readArg a).2.pc = m.pc := by
  rcases readArg_snd_cases m a with h | h <;> rw [h] <;> rfl

theorem readArg_snd_stack (m : Machine) (a : Nat) :
    (m.readArg a).2.stack = m.stack := by
  rcases readArg_snd_cases m a with h | h <;> rw [h] <;> rfl

theorem readArg_snd_out (m : Machine) (a : Nat) :
    (m.readArg a).2.out = m.out := by
  rcases readArg_snd_cases m a with h | h <;> rw [h] <;> rfl

theorem readArg_snd_input (m : Machine) (a : Nat) :
    (m.readArg a).2.input = m.input := by
  rcases readArg_snd_cases m a with h | h <;> rw [h] <;> rfl

theorem readArg_snd_unused (m : Machine) (a : Nat) :
    (m.readArg a).2.unused_input = m.unused_input := by
  rcases readArg_snd_cases m a with h | h <;> rw [h] <;> rfl

theorem readArg_snd_state_of_error (m : Machine) (a : Nat) (h : m.state = ERROR) :
    (m.readArg a).2.state = ERROR := by
  rcases readArg_snd_cases m a with h2 | h2 <;> rw [h2]
  · exact h
  · rfl

theorem readArg_eta (m : Machine) (a : Nat) :
    m.readArg a = ((m.readArg a).1, (m.readArg a).2) := rfl

theorem getD_le {l : List Nat} {k : Nat} (h : ∀ v ∈ l, v ≤ k) (i : Nat) :
    l.getD i 0 ≤ k := by
  unfold List.getD
  cases hg : l.get? i with
  | none => simp
  | some v =>
    have := List.get?_mem hg
    simpa using h v this

theorem readArg_fst_le {m : Machine} (h : ∀ v ∈ m.regs, v ≤ 32767) (a : Nat) :
    (m.readArg a).1 ≤ 32767 := by
  unfold Machine.readArg
  by_cases hv : isValue a = true
  · rw [hv]
    simpa [isValue_iff] using hv
  · rw [eq_false_of_ne_true hv]
    by_cases hr : isReg a = true
    · rw [hr]
      simpa using getD_le h (decipherReg a)
    · rw [eq_false_of_ne_true hr]
      simp

theorem setCell_eq_some {l : List Nat} {i : Nat} (v : Nat) (h : i < l.length) :
    setCell l i v = some (l.set i v) := by
  unfold setCell
  rw [if_pos h]

theorem setCell_eq_none {l : List Nat} {i : Nat} (v : Nat) (h : l.length ≤ i) :
    setCell l i v = none := by
  unfold setCell
  rw [if_neg (by omega)]

theorem setCell_some_elim {l l' : List Nat} {i v : Nat}
    (h : setCell l i v = some l') : l' = l.set i v := by
  unfold setCell at h
  by_cases hi : i < l.length
  · rw [if_pos hi] at h
    exact (Option.some_inj.mp h).symm
  · rw [if_neg hi] at h
    exact absurd h (by simp)

theorem mem_set_le {l : List Nat} {k i v : Nat}
    (hl : ∀ x ∈ l, x ≤ k) (hv : v ≤ k) : ∀ x ∈ l.set i v, x ≤ k := by
  intro x hx
  rcases List.mem_or_eq_of_mem_set hx with h | h
  · exact hl x h
  · omega

theorem writeDest_spec {m m' : Machine} {dst v : Nat}
    (h : m.writeDest dst v = some m') :
    m'.pc = m.pc ∧ m'.stack = m.stack ∧ m'.state = m.state ∧
    m'.input = m.input ∧ m'.unused_input = m.unused_input ∧ m'.out = m.out ∧
    (if isReg dst then
      m'.regs = m.regs.set (decipherReg dst) v ∧ m'.memory = m.memory
    else
      m'.memory = m.memory.set dst v ∧ m'.regs = m.regs) := by
  unfold Machine.writeDest at h
  split at h
  case isTrue hr =>
    rw [if_pos hr]
    simp only [Option.bind_eq_bind] at h
    cases hc : setCell m.regs (decipherReg dst) v with
    | none => rw [hc] at h; exact absurd h (by simp)
    | some regs =>
      rw [hc] at h
      simp only [Option.some_bind, Option.some_inj] at h
      have hs := setCell_some_elim hc
      subst hs
      rw [← h]
      simp
  case isFalse hr =>
    rw [if_neg hr]
    simp only [Option.bind_eq_bind] at h
    cases hc : setCell m.memory dst v with
    | none => rw [hc] at h; exact absurd h (by simp)
    | some memory =>
      rw [hc] at h
      simp only [Option.some_bind, Option.some_inj] at h
      have hs := setCell_some_elim hc
      subst hs
      rw [← h]
      simp

/-! ### One-step dispatch and per-arm equations -/

theorem step_dispatch {m : Machine} {op : Nat} {args : List Nat}
    (hop : m.memory.get? m.pc = some op)
    (hargs : m.getArgs op = some args) :
    m.Step = m.stepCase op args := by
  unfold Machine.Step
  rw [hop]
  simp only [Option.bind_eq_bind, Option.some_bind]
  rw [hargs]
  simp only [Option.some_bind]

/-! ### Per-arm evaluation lemmas -/

theorem doSET_eq {m m1 : Machine} {a0 a1 v : Nat}
    (hread : m.readArg a1 = (v, m1)) :
    m.doSET [a0, a1] = (setCell m1.regs (decipherReg a0) v).bind
      (fun regs => some { m1 with regs := regs, pc := m1.nextProgramCounter 1 }) := by
  unfold Machine.doSET
  simp only [List.get?, Option.bind_eq_bind, Option.some_bind]
  rw [hread]

theorem doPUSH_eq {m m1 : Machine} {a0 v : Nat}
    (hread : m.readArg a0 = (v, m1)) :
    m.doPUSH [a0] = some { m1 with stack := v :: m1.stack, pc := m1.nextProgramCounter 2 } := by
  unfold Machine.doPUSH
  simp only [List.get?, Option.bind_eq_bind, Option.some_bind]
  rw [hread]

theorem doPOP_nil {m : Machine} {a0 : Nat} (hs : m.stack = []) :
    m.doPOP [a0] = some m.Error := by
  unfold Machine.doPOP
  simp only [List.get?, Option.bind_eq_bind, Option.some_bind]
  rw [hs]

theorem doPOP_cons {m : Machine} {a0 v : Nat} {rest : List Nat}
    (hs : m.stack = v :: rest) :
    m.doPOP [a0] = (Machine.writeDest { m with stack := rest } a0 v).bind
      (fun m1 => some { m1 with pc := m1.nextProgramCounter 3 }) := by
  unfold Machine.doPOP
  simp only [List.get?, Option.bind_eq_bind, Option.some_bind]
  rw [hs]

theorem doEQ_eq {m m1 m2 : Machine} {a0 a1 a2 b c : Nat}
    (hb : m.readArg a1 = (b, m1)) (hc : m1.readArg a2 = (c, m2)) :
    m.doEQ [a0, a1, a2] = (m2.writeDest a0 (if b = c then 1 else 0)).bind
      (fun m3 => some { m3 with pc := m3.nextProgramCounter 4 }) := by
  unfold Machine.doEQ
  simp only [List.get?, Option.bind_eq_bind, Option.some_bind]
  rw [hb, hc]

theorem doGT_eq {m m1 m2 : Machine} {a0 a1 a2 b c : Nat}
    (hb : m.readArg a1 = (b, m1)) (hc : m1.readArg a2 = (c, m2)) :
    m.doGT [a0, a1, a2] = (m2.writeDest a0 (if b > c then 1 else 0)).bind
      (fun m3 => some { m3 with pc := m3.nextProgramCounter 5 }) := by
  unfold Machine.doGT
  simp only [List.get?, Option.bind_eq_bind, Option.some_bind]
  rw [hb, hc]

theorem doJMP_eq {m m1 : Machine} {a0 v : Nat}
    (hread : m.readArg a0 = (v, m1)) :
    m.doJMP [a0] = some { m1 with pc := v } := by
  unfold Machine.doJMP
  simp only [List.get?, Option.bind_eq_bind, Option.some_bind]
  rw [hread]

theorem doJT_taken {m m1 m2 : Machine} {a0 a1 a b : Nat}
    (ha : m.readArg a0 = (a, m1)) (hne : a ≠ 0)
    (hb : m1.readArg a1 = (b, m2)) :
    m.doJT [a0, a1] = some { m2 with pc := b } := by
  unfold Machine.doJT
  simp only [List.get?, Option.bind_eq_bind, Option.some_bind]
  rw [ha]
  simp only [if_pos hne]
  rw [hb]

theorem doJT_fall {m m1 : Machine} {a0 a1 : Nat}
    (ha : m.readArg a0 = (0, m1)) :
    m.doJT [a0, a1] = some { m1 with pc := m1.nextProgramCounter 7 } := by
  unfold Machine.doJT
  simp only [List.get?, Option.bind_eq_bind, Option.some_bind]
  rw [ha]
  simp

theorem doJF_taken {m m1 m2 : Machine} {a0 a1 b : Nat}
    (ha : m.readArg a0 = (0, m1)) (hb : m1.readArg a1 = (b, m2)) :
    m.doJF [a0, a1] = some { m2 with pc := b } := by
  unfold Machine.doJF
  simp only [List.get?, Option.bind_eq_bind, Option.some_bind]
  rw [ha]
  simp [hb]

theorem doJF_fall {m m1 : Machine} {a0 a1 a : Nat}
    (ha : m.readArg a0 = (a, m1)) (hne : a ≠ 0) :
    m.doJF [a0, a1] = some { m1 with pc := m1.nextProgramCounter 8 } := by
  unfold Machine.doJF
  simp only [List.get?, Option.bind_eq_bind, Option.some_bind]
  rw [ha]
  simp only [if_neg hne]

theorem doADD_eq {m m1 m2 : Machine} {a0 a1 a2 b c : Nat}
    (hb : m.readArg a1 = (b, m1)) (hc : m1.readArg a2 = (c, m2)) :
    m.doADD [a0, a1, a2] = (m2.writeDest a0 (addWord b c)).bind
      (fun m3 => some { m3 with pc := m3.nextProgramCounter 9 }) := by
  unfold Machine.doADD
  simp only [List.get?, Option.bind_eq_bind, Option.some_bind]
  rw [hb, hc]

theorem doMULT_eq {m m1 m2 : Machine} {a0 a1 a2 b c : Nat}
    (hb : m.readArg a1 = (b, m1)) (hc : m1.readArg a2 = (c, m2)) :
    m.doMULT [a0, a1, a2] = (m2.writeDest a0 (multWord b c)).bind
      (fun m3 => some { m3 with pc := m3.nextProgramCounter 10 }) := by
  unfold Machine.doMULT
  simp only [List.get?, Option.bind_eq_bind, Option.some_bind]
  rw [hb, hc]

theorem doMOD_zero {m m1 m2 : Machine} {a0 a1 a2 b : Nat}
    (hb : m.readArg a1 = (b, m1)) (hc : m1.readArg a2 = (0, m2)) :
    m.doMOD [a0, a1, a2] = none := by
  unfold Machine.doMOD
  simp only [List.get?, Option.bind_eq_bind, Option.some_bind]
  rw [hb, hc]
  simp

theorem doMOD_eq {m m1 m2 : Machine} {a0 a1 a2 b c : Nat}
    (hb : m.readArg a1 = (b, m1)) (hc : m1.readArg a2 = (c, m2))
    (hnz : c ≠ 0) :
    m.doMOD [a0, a1, a2] = (m2.writeDest a0 (b % c)).bind
      (fun m3 => some { m3 with pc := m3.nextProgramCounter 11 }) := by
  unfold Machine.doMOD
  simp only [List.get?, Option.bind_eq_bind, Option.some_bind]
  rw [hb, hc]
  simp only [if_neg hnz]

theorem doAND_eq {m m1 m2 : Machine} {a0 a1 a2 b c : Nat}
    (hb : m.readArg a1 = (b, m1)) (hc : m1.readArg a2 = (c, m2)) :
    m.doAND [a0, a1, a2] = (m2.writeDest a0 (b.land c)).bind
      (fun m3 => some { m3 with pc := m3.nextProgramCounter 12 }) := by
  unfold Machine.doAND
  simp only [List.get?, Option.bind_eq_bind, Option.some_bind]
  rw [hb, hc]

theorem doOR_eq {m m1 m2 : Machine} {a0 a1 a2 b c : Nat}
    (hb : m.readArg a1 = (b, m1)) (hc : m1.readArg a2 = (c, m2)) :
    m.doOR [a0, a1, a2] = (m2.writeDest a0 (b.lor c)).bind
      (fun m3 => some { m3 with pc := m3.nextProgramCounter 13 }) := by
  unfold Machine.doOR
  simp only [List.get?, Option.bind_eq_bind, Option.some_bind]
  rw [hb, hc]

theorem doNOT_eq {m m1 : Machine} {a0 a1 b : Nat}
    (hb : m.readArg a1 = (b, m1)) :
    m.doNOT [a0, a1] = (m1.writeDest a0 (b.xor MAX_15BIT)).bind
      (fun m2 => some { m2 with pc := m2.nextProgramCounter 14 }) := by
  unfold Machine.doNOT
  simp only [List.get?, Option.bind_eq_bind, Option.some_bind]
  rw [hb]

theorem doRMEM_eq {m m1 : Machine} {a0 a1 bv : Nat}
    (hb : m.readArg a1 = (bv, m1)) :
    m.doRMEM [a0, a1] = (m1.memory.get? bv).bind
      (fun w => (setCell m1.regs (decipherReg a0) w).bind
        (fun regs => some { m1 with regs := regs, pc := m1.nextProgramCounter 15 })) := by
  unfold Machine.doRMEM
  simp only [List.get?, Option.bind_eq_bind, Option.some_bind]
  rw [hb]

theorem doWMEM_eq {m m1 m2 : Machine} {a0 a1 addr v : Nat}
    (ha : m.readArg a0 = (addr, m1)) (hb : m1.readArg a1 = (v, m2)) :
    m.doWMEM [a0, a1] = (setCell m2.memory addr v).bind
      (fun memory => some { m2 with memory := memory, pc := m2.nextProgramCounter 16 }) := by
  unfold Machine.doWMEM
  simp only [List.get?, Option.bind_eq_bind, Option.some_bind]
  rw [ha, hb]

theorem doCALL_eq {m m2 : Machine} {a0 v : Nat}
    (hread : Machine.readArg { m with stack := m.nextProgramCounter 17 :: m.stack } a0 = (v, m2)) :
    m.doCALL [a0] = some { m2 with pc := v } := by
  unfold Machine.doCALL
  simp only [List.get?, Option.bind_eq_bind, Option.some_bind]
  rw [hread]

theorem doRET_nil {m : Machine} (hs : m.stack = []) :
    m.doRET = some m.Error := by
  unfold Machine.doRET
  rw [hs]

theorem doRET_cons {m : Machine} {npc : Nat} {rest : List Nat}
    (hs : m.stack = npc :: rest) :
    m.doRET = some { m with stack := rest, pc := npc } := by
  unfold Machine.doRET
  rw [hs]

theorem doOUT_eq {m m1 : Machine} {a0 v : Nat}
    (hread : m.readArg a0 = (v, m1)) :
    m.doOUT [a0] = some { m1 with out := m1.out ++ [v], pc := m1.nextProgramCounter 19 } := by
  unfold Machine.doOUT
  simp only [List.get?, Option.bind_eq_bind, Option.some_bind]
  rw [hread]

theorem doIN_empty_refill_nil {m : Machine} {a0 : Nat}
    (hu : m.unused_input = []) (hl : m.input.headD [] = []) :
    m.doIN [a0] = none := by
  unfold Machine.doIN
  simp only [List.get?, Option.bind_eq_bind, Option.some_bind]
  rw [hu, hl]
  simp

theorem doIN_empty_refill_reg {m : Machine} {a0 c : Nat} {tl : List Nat}
    {rest : List (List Nat)}
    (hu : m.unused_input = []) (hl : m.input = (c :: tl) :: rest)
    (hr : isReg a0 = true) :
    m.doIN [a0] = (setCell m.regs (decipherReg a0) (c % 65536)).bind
      (fun regs =>
        some { m with
               regs := regs,
               input := rest,
               unused_input := tl.map (fun x => x % 65536),
               pc := (m.pc + 1 + 1) % 65536 }) := by
  unfold Machine.doIN
  simp only [List.get?, Option.bind_eq_bind, Option.some_bind]
  rw [hu, hl]
  simp only [List.isEmpty_nil, if_pos rfl, List.headD_cons, List.map_cons,
    List.get?, Option.some_bind, List.tail_cons, hr, if_pos rfl, List.drop_succ_cons,
    List.drop_zero]
  rfl

theorem argsForOp_of_ge {op : Nat} (h : 22 ≤ op) : argsForOp op = 0 := by
  unfold argsForOp
  split <;> omega

theorem getArgs_zero_ary {m : Machine} {op : Nat} (h : argsForOp op = 0) :
    m.getArgs op = some [] := by
  unfold Machine.getArgs
  rw [h]
  simp

theorem stepCase_unknown {m : Machine} {op : Nat} {args : List Nat} (h : 22 ≤ op) :
    m.stepCase op args = some { m.Error with pc := (m.pc + 1) % 65536 } := by
  unfold Machine.stepCase
  have hpc : Machine.nextProgramCounter m.Error op = (m.pc + 1) % 65536 := by
    unfold Machine.nextProgramCounter
    rw [argsForOp_of_ge h, Error_pc]
  split <;> first
    | omega
    | simp [Machine.doUNKNOWN, hpc]

/-! ### Further shared helpers -/

theorem get?_set_cases {l : List Nat} {j x i v : Nat}
    (h : (l.set j x).get? i = some v) : l.get? i = some v ∨ v = x := by
  by_cases hij : i = j
  · subst hij
    rw [List.get?_eq_getElem?, List.getElem?_set_self'] at h
    cases hg : l[i]? with
    | none => rw [hg] at h; exact absurd h (by simp)
    | some w =>
      rw [hg] at h
      right
      simpa using h.symm
  · left
    rw [List.get?_eq_getElem?] at h ⊢
    rwa [List.getElem?_set_ne (by omega)] at h

theorem getArgs_eq {m : Machine} {op : Nat}
    (hn : 0 < argsForOp op) (hle : m.pc + 1 + argsForOp op ≤ m.memory.length) :
    m.getArgs op = some ((m.memory.drop (m.pc + 1)).take (argsForOp op)) := by
  unfold Machine.getArgs
  rw [if_pos hn, if_pos hle]

theorem getArgs_length {m : Machine} {op : Nat} {args : List Nat}
    (h : m.getArgs op = some args) : args.length = argsForOp op := by
  unfold Machine.getArgs at h
  by_cases hn : argsForOp op > 0
  · rw [if_pos hn] at h
    by_cases hle : m.pc + 1 + argsForOp op ≤ m.memory.length
    · rw [if_pos hle] at h
      have := Option.some_inj.mp h
      subst this
      rw [List.length_take, List.length_drop]
      omega
    · rw [if_neg hle] at h
      exact absurd h (by simp)
  · rw [if_neg hn] at h
    have := Option.some_inj.mp h
    subst this
    simp
    omega

theorem readArg_fst_congr {m m1 : Machine} (a : Nat) (h : m1.regs = m.regs) :
    (m1.readArg a).1 = (m.readArg a).1 := by
  unfold Machine.readArg
  by_cases hv : isValue a = true
  · simp [hv]
  · by_cases hr : isReg a = true
    · simp [hv, hr, h]
    · simp [hv, hr]

theorem stepWrite_elim {mw m' : Machine} {a0 v k : Nat}
    (h : (mw.writeDest a0 v).bind
      (fun m3 => some { m3 with pc := m3.nextProgramCounter k }) = some m') :
    (isReg a0 = true → m'.regs = mw.regs.set (decipherReg a0) v ∧ m'.memory = mw.memory) ∧
    (isReg a0 = false → m'.memory = mw.memory.set a0 v ∧ m'.regs = mw.regs) ∧
    m'.stack = mw.stack ∧ m'.state = mw.state ∧ m'.out = mw.out ∧
    m'.input = mw.input ∧ m'.unused_input = mw.unused_input := by
  cases hw : mw.writeDest a0 v with
  | none =>
    rw [hw] at h
    exact absurd h (by simp)
  | some m3 =>
    rw [hw] at h
    simp only [Option.bind_eq_bind, Option.some_bind, Option.some_inj] at h
    obtain ⟨hpc, hstk, hst, hin, hun, hout, hcond⟩ := writeDest_spec hw
    subst h
    refine ⟨?_, ?_, by simpa using hstk, by simpa using hst, by simpa using hout,
      by simpa using hin, by simpa using hun⟩
    · intro hr
      rw [if_pos hr] at hcond
      exact ⟨by simpa using hcond.1, by simpa using hcond.2⟩
    · intro hr
      rw [if_neg (by simp [hr])] at hcond
      exact ⟨by simpa using hcond.1, by simpa using hcond.2⟩

theorem NewMachine_memory_length (prog : List Nat) (stdin : List (List Nat))
    (h : prog.length ≤ 32768) :
    (NewMachine prog stdin).memory.length = 32768 := by
  show (prog.take 32768 ++ List.replicate (32768 - prog.length) 0).length = 32768
  rw [List.length_append, List.length_take, List.length_replicate]
  omega

theorem writeDest_some_of_isReg {m : Machine} {a0 v : Nat}
    (hr : isReg a0 = true) (hlen : m.regs.length = 8) :
    m.writeDest a0 v = some { m with regs := m.regs.set (decipherReg a0) v } := by
  unfold Machine.writeDest
  rw [hr]
  simp only [if_pos rfl, Option.bind_eq_bind]
  rw [setCell_eq_some v (by rw [hlen]; exact decipherReg_lt_of_isReg hr)]
  simp

/-! ### Claim theorems -/

/-- C1: the spec says a RET executed with an empty stack transitions the
run state to HALTED (normal termination), not ERRORED.  The `RET` arm of
the Go `Step` calls `m.Error("Popped an empty stack.")`, so the machine in
fact transitions to the `ERROR` state (2), not `HALTED` (1) — contradicting
the code's own comment on the `RET` opcode ("empty stack = halt").  This
theorem evaluates the code on every such state: the step yields `m.Error`,
whose run state is `ERROR`, and `ERROR` differs from `HALTED`. -/
theorem C1_ret_empty_stack_errors (m : Machine)
    (hs : m.stack = []) (hop : m.memory.get? m.pc = some 18) :
    m.Step = some m.Error ∧ m.Error.state = ERROR ∧ ERROR ≠ HALTED := by
  have hargs : m.getArgs 18 = some [] := getArgs_zero_ary rfl
  have hd := step_dispatch hop hargs
  rw [show m.stepCase 18 [] = m.doRET from rfl] at hd
  rw [doRET_nil hs] at hd
  exact ⟨hd, rfl, by decide⟩

/-- Witness for C1: the machine loaded with the one-word image `[18]`
(a single RET) steps to the `ERROR` state. -/
theorem C1_ret_empty_stack_errors_witness :
    (NewMachine [18] []).Step = some (NewMachine [18] []).Error ∧
    (NewMachine [18] []).Error.state = ERROR ∧ ERROR ≠ HALTED :=
  C1_ret_empty_stack_errors (NewMachine [18] []) rfl rfl

/-- C6: for resolved operands `b, c` in `[0, 32767]`, the value the `ADD`
arm stores is `(b + c) % 32768` and the value the `MULT` arm stores is
`(b * c) % 32768` — the exact mathematical result modulo 32768, in
`[0, 32767]`, despite the 16-bit (mod 2^16) intermediate arithmetic
embedded in `addWord` and `multWord`. -/
theorem C6_add_mult_mod_32768 (b c : Nat) (hb : b ≤ MAX_15BIT) (hc : c ≤ MAX_15BIT) :
    addWord b c = (b + c) % 32768 ∧ multWord b c = (b * c) % 32768 ∧
    addWord b c ≤ 32767 ∧ multWord b c ≤ 32767 := by
  unfold MAX_15BIT at hb hc
  have h1 : addWord b c = (b + c) % 32768 := by
    unfold addWord OVERFLOW_15BIT
    rw [Nat.mod_eq_of_lt (by omega : b + c < 65536)]
  have h2 : multWord b c = (b * c) % 32768 := by
    unfold multWord OVERFLOW_15BIT
    rw [Nat.mod_mod_of_dvd _ (by norm_num : (32768:Nat) ∣ 65536)]
  refine ⟨h1, h2, by omega, ?_⟩
  rw [h2]
  have := Nat.mod_lt (b * c) (show 0 < 32768 by norm_num)
  omega

/-- Witness for C6 at the maximal case `b = c = 32767`. -/
theorem C6_add_mult_mod_32768_witness :
    32767 ≤ MAX_15BIT ∧
    (addWord 32767 32767 = (32767 + 32767) % 32768 ∧
     multWord 32767 32767 = (32767 * 32767) % 32768 ∧
     addWord 32767 32767 ≤ 32767 ∧ multWord 32767 32767 ≤ 32767) :=
  ⟨by decide, C6_add_mult_mod_32768 32767 32767 (by decide) (by decide)⟩

/-- C8: the machine initialized with the image `[3, 32768]` (POP into
register 0) and an empty stack transitions on its first step to `ERROR`
(the POP arm hits the empty stack), with all eight registers still zero
and `pc` unchanged. -/
theorem C8_pop_empty_stack :
    (NewMachine [3, 32768] []).Step = some (NewMachine [3, 32768] []).Error ∧
    (NewMachine [3, 32768] []).Error.state = ERROR ∧
    (NewMachine [3, 32768] []).Error.regs = List.replicate 8 0 ∧
    (NewMachine [3, 32768] []).Error.pc = 0 := by
  have hop : (NewMachine [3, 32768] []).memory.get? (NewMachine [3, 32768] []).pc
      = some 3 := rfl
  have hargs : (NewMachine [3, 32768] []).getArgs 3 = some [32768] := by
    rw [getArgs_eq (by decide)
      (by rw [NewMachine_memory_length _ _ (by decide)]; decide)]
    rfl
  have hd := step_dispatch hop hargs
  rw [show (NewMachine [3, 32768] []).stepCase 3 [32768]
      = (NewMachine [3, 32768] []).doPOP [32768] from rfl] at hd
  rw [doPOP_nil rfl] at hd
  exact ⟨hd, rfl, rfl, rfl⟩

/-- C5 (amended): every executed OUT instruction appends exactly one
character code to the output sink, in program order; the emitted code is
the full resolved operand value (Go `%c` prints the code point of the
whole `uint16` value), not its low byte. -/
theorem C5_out_emits_resolved_value (m : Machine) (a0 : Nat)
    (hop : m.memory.get? m.pc = some 19)
    (hargs : m.getArgs 19 = some [a0]) :
    ∃ m', m.Step = some m' ∧ m'.out = m.out ++ [(m.readArg a0).1] := by
  have hread : m.readArg a0 = ((m.readArg a0).1, (m.readArg a0).2) := rfl
  have hd := step_dispatch hop hargs
  rw [show m.stepCase 19 [a0] = m.doOUT [a0] from rfl] at hd
  rw [doOUT_eq hread] at hd
  refine ⟨_, hd, ?_⟩
  show (m.readArg a0).2.out ++ [(m.readArg a0).1] = m.out ++ [(m.readArg a0).1]
  rw [readArg_snd_out]

/-- Witness for C5: a machine at an OUT instruction with literal operand 65. -/
theorem C5_out_emits_resolved_value_witness :
    ∃ m', (NewMachine [19, 65] []).Step = some m' ∧
      m'.out = (NewMachine [19, 65] []).out
        ++ [((NewMachine [19, 65] []).readArg 65).1] :=
  C5_out_emits_resolved_value (NewMachine [19, 65] []) 65 rfl
    (by rw [getArgs_eq (by decide)
          (by rw [NewMachine_memory_length _ _ (by decide)]; decide)]
        rfl)

/-- Counterexample for C5 as stated: OUT with resolved value 256 emits the
character with code 256, while the low byte of 256 is 0 — the emitted code
is not the low byte of the resolved value. -/
theorem C5_counterexample_not_low_byte :
    ((NewMachine [19, 256] []).Step).map (fun s => s.out) = some [256] ∧
    (256 : Nat) % 256 = 0 ∧ (256 : Nat) ≠ (256 : Nat) % 256 := by
  have hop : (NewMachine [19, 256] []).memory.get? (NewMachine [19, 256] []).pc
      = some 19 := rfl
  have hargs : (NewMachine [19, 256] []).getArgs 19 = some [256] := by
    rw [getArgs_eq (by decide)
      (by rw [NewMachine_memory_length _ _ (by decide)]; decide)]
    rfl
  have hread : (NewMachine [19, 256] []).readArg 256 = (256, NewMachine [19, 256] []) := rfl
  have hd := step_dispatch hop hargs
  rw [show (NewMachine [19, 256] []).stepCase 19 [256]
      = (NewMachine [19, 256] []).doOUT [256] from rfl] at hd
  rw [doOUT_eq hread] at hd
  rw [hd]
  exact ⟨rfl, by decide, by decide⟩

/-- C7: a CALL at address `p` with a valid operand pushes `p + 2` (the
address of the next instruction) and jumps to the resolved operand; a
subsequent RET from any machine whose stack is that pushed stack pops
`p + 2` into `pc`, resuming right after the CALL. -/
theorem C7_call_ret_roundtrip (m : Machine) (a0 : Nat)
    (hop : m.memory.get? m.pc = some 17)
    (hargs : m.getArgs 17 = some [a0])
    (hval : isValue a0 = true ∨ isReg a0 = true)
    (hpc : m.pc + 2 < 65536) :
    ∃ m', m.Step = some m' ∧ m'.stack = (m.pc + 2) :: m.stack ∧
      m'.pc = (m.readArg a0).1 ∧
      ∀ m2 : Machine, m2.stack = (m.pc + 2) :: m.stack →
        m2.memory.get? m2.pc = some 18 →
        m2.Step = some { m2 with stack := m.stack, pc := m.pc + 2 } := by
  have hnpc : m.nextProgramCounter 17 = m.pc + 2 := by
    unfold Machine.nextProgramCounter
    rw [show argsForOp 17 = 1 from rfl]
    omega
  have hread : Machine.readArg { m with stack := m.nextProgramCounter 17 :: m.stack } a0
      = ((Machine.readArg { m with stack := m.nextProgramCounter 17 :: m.stack } a0).1,
         { m with stack := m.nextProgramCounter 17 :: m.stack }) := by
    rcases hval with h | h
    · rw [readArg_of_isValue _ h]
    · rw [readArg_of_isReg _ h]
  have hd := step_dispatch hop hargs
  rw [show m.stepCase 17 [a0] = m.doCALL [a0] from rfl] at hd
  rw [doCALL_eq hread] at hd
  refine ⟨_, hd, ?_, ?_, ?_⟩
  · show m.nextProgramCounter 17 :: m.stack = (m.pc + 2) :: m.stack
    rw [hnpc]
  · show (Machine.readArg { m with stack := m.nextProgramCounter 17 :: m.stack } a0).1
      = (m.readArg a0).1
    exact readArg_fst_congr a0 rfl
  · intro m2 hs2 hop2
    have hargs2 : m2.getArgs 18 = some [] := getArgs_zero_ary rfl
    have hd2 := step_dispatch hop2 hargs2
    rw [show m2.stepCase 18 [] = m2.doRET from rfl] at hd2
    rw [doRET_cons hs2] at hd2
    exact hd2

/-- Witness for C7: image `[17, 3, 0, 18]` — CALL 3 pushes 2 and jumps to
the RET at address 3, which pops 2 back into `pc`. -/
theorem C7_call_ret_roundtrip_witness :
    ∃ m', (NewMachine [17, 3, 0, 18] []).Step = some m' ∧
      m'.stack = ((NewMachine [17, 3, 0, 18] []).pc + 2)
        :: (NewMachine [17, 3, 0, 18] []).stack ∧
      m'.pc = ((NewMachine [17, 3, 0, 18] []).readArg 3).1 ∧
      ∀ m2 : Machine, m2.stack = ((NewMachine [17, 3, 0, 18] []).pc + 2)
          :: (NewMachine [17, 3, 0, 18] []).stack →
        m2.memory.get? m2.pc = some 18 →
        m2.Step = some { m2 with
                         stack := (NewMachine [17, 3, 0, 18] []).stack,
                         pc := (NewMachine [17, 3, 0, 18] []).pc + 2 } :=
  C7_call_ret_roundtrip (NewMachine [17, 3, 0, 18] []) 3 rfl
    (by rw [getArgs_eq (by decide)
          (by rw [NewMachine_memory_length _ _ (by decide)]; decide)]
        rfl)
    (Or.inl (by decide)) (by decide)

/-- C9: SET and RMEM treat their destination operand unconditionally as a
register reference: a destination `d` in `[32768, 32775]` writes register
`d - 32768`; a destination `d` in `[0, 32767]` makes `decipherReg` wrap to
`d + 32768`, outside the 8-register slice, so the Go code panics (`Step`
is `none`); and in no case is memory written. -/
theorem C9_set_rmem_register_destination (m : Machine) (op a0 a1 : Nat)
    (hopv : op = 1 ∨ op = 15)
    (hop : m.memory.get? m.pc = some op)
    (hargs : m.getArgs op = some [a0, a1])
    (hlen : m.regs.length = 8) :
    (∀ m', m.Step = some m' → m'.memory = m.memory) ∧
    (isReg a0 = true → ∀ m', m.Step = some m' →
      ∃ w, m'.regs = m.regs.set (a0 - 32768) w) ∧
    (a0 ≤ 32767 → decipherReg a0 = a0 + 32768 ∧ 8 ≤ decipherReg a0 ∧
      m.Step = none) := by
  have hm1regs := readArg_snd_regs m a1
  have hm1mem := readArg_snd_memory m a1
  have hread : m.readArg a1 = ((m.readArg a1).1, (m.readArg a1).2) := rfl
  rcases hopv with rfl | rfl
  · have hd := step_dispatch hop hargs
    rw [show m.stepCase 1 [a0, a1] = m.doSET [a0, a1] from rfl] at hd
    rw [doSET_eq hread] at hd
    refine ⟨?_, ?_, ?_⟩
    · intro m' h
      rw [hd] at h
      cases hc : setCell (m.readArg a1).2.regs (decipherReg a0) (m.readArg a1).1 with
      | none => rw [hc] at h; exact absurd h (by simp)
      | some regs =>
        rw [hc] at h
        simp only [Option.bind_eq_bind, Option.some_bind, Option.some_inj] at h
        subst h
        exact hm1mem
    · intro hr m' h
      rw [hd] at h
      rw [setCell_eq_some _
        (by rw [hm1regs, hlen]; exact decipherReg_lt_of_isReg hr)] at h
      simp only [Option.bind_eq_bind, Option.some_bind, Option.some_inj] at h
      subst h
      refine ⟨(m.readArg a1).1, ?_⟩
      show (m.readArg a1).2.regs.set (decipherReg a0) (m.readArg a1).1 = _
      rw [hm1regs, decipherReg_of_isReg hr]
    · intro hlow
      have h1 := decipherReg_of_low hlow
      refine ⟨h1, by omega, ?_⟩
      rw [hd, setCell_eq_none _ (by rw [hm1regs, hlen, h1]; omega)]
      rfl
  · have hd := step_dispatch hop hargs
    rw [show m.stepCase 15 [a0, a1] = m.doRMEM [a0, a1] from rfl] at hd
    rw [doRMEM_eq hread] at hd
    refine ⟨?_, ?_, ?_⟩
    · intro m' h
      rw [hd] at h
      cases hw : (m.readArg a1).2.memory.get? (m.readArg a1).1 with
      | none => rw [hw] at h; exact absurd h (by simp)
      | some w =>
        rw [hw] at h
        simp only [Option.bind_eq_bind, Option.some_bind] at h
        cases hc : setCell (m.readArg a1).2.regs (decipherReg a0) w with
        | none => rw [hc] at h; exact absurd h (by simp)
        | some regs =>
          rw [hc] at h
          simp only [Option.some_bind, Option.some_inj] at h
          subst h
          exact hm1mem
    · intro hr m' h
      rw [hd] at h
      cases hw : (m.readArg a1).2.memory.get? (m.readArg a1).1 with
      | none => rw [hw] at h; exact absurd h (by simp)
      | some w =>
        rw [hw] at h
        simp only [Option.bind_eq_bind, Option.some_bind] at h
        rw [setCell_eq_some _
          (by rw [hm1regs, hlen]; exact decipherReg_lt_of_isReg hr)] at h
        simp only [Option.some_bind, Option.some_inj] at h
        subst h
        refine ⟨w, ?_⟩
        show (m.readArg a1).2.regs.set (decipherReg a0) w = _
        rw [hm1regs, decipherReg_of_isReg hr]
    · intro hlow
      have h1 := decipherReg_of_low hlow
      refine ⟨h1, by omega, ?_⟩
      rw [hd]
      cases hw : (m.readArg a1).2.memory.get? (m.readArg a1).1 with
      | none => rfl
      | some w =>
        simp only [Option.bind_eq_bind, Option.some_bind]
        rw [setCell_eq_none _ (by rw [hm1regs, hlen, h1]; omega)]
        rfl

/-- Witness for C9: image `[1, 32768, 7]` (SET reg0 := 7). -/
theorem C9_set_rmem_register_destination_witness :
    (∀ m', (NewMachine [1, 32768, 7] []).Step = some m' →
      m'.memory = (NewMachine [1, 32768, 7] []).memory) ∧
    (isReg 32768 = true → ∀ m', (NewMachine [1, 32768, 7] []).Step = some m' →
      ∃ w, m'.regs = (NewMachine [1, 32768, 7] []).regs.set (32768 - 32768) w) ∧
    ((32768 : Nat) ≤ 32767 → decipherReg 32768 = 32768 + 32768 ∧
      8 ≤ decipherReg 32768 ∧ (NewMachine [1, 32768, 7] []).Step = none) :=
  C9_set_rmem_register_destination (NewMachine [1, 32768, 7] []) 1 32768 7
    (Or.inl rfl) rfl
    (by rw [getArgs_eq (by decide)
          (by rw [NewMachine_memory_length _ _ (by decide)]; decide)]
        rfl)
    (by decide)

/-- C10: when IN executes with an empty pending-input buffer and the
refill yields zero characters (no input line, or an empty line), the code
reads element 0 of a still-empty slice and panics (`Step = none`); when
the refill yields at least one character (and the destination is a
register), the step succeeds. -/
theorem C10_in_empty_refill (m : Machine) (a0 : Nat)
    (hop : m.memory.get? m.pc = some 20)
    (hargs : m.getArgs 20 = some [a0])
    (hu : m.unused_input = []) :
    (m.input.headD [] = [] → m.Step = none) ∧
    (∀ c tl rest, m.input = (c :: tl) :: rest → isReg a0 = true →
      m.regs.length = 8 → ∃ m', m.Step = some m' ∧
        m'.regs = m.regs.set (decipherReg a0) (c % 65536)) := by
  have hd := step_dispatch hop hargs
  rw [show m.stepCase 20 [a0] = m.doIN [a0] from rfl] at hd
  constructor
  · intro hl
    rw [hd, doIN_empty_refill_nil hu hl]
  · intro c tl rest hinp hr hlen
    rw [doIN_empty_refill_reg hu hinp hr] at hd
    rw [setCell_eq_some _
      (by rw [hlen]; exact decipherReg_lt_of_isReg hr)] at hd
    simp only [Option.bind_eq_bind, Option.some_bind] at hd
    exact ⟨_, hd, rfl⟩

/-- Witness for C10: image `[20, 32768]` with one pending input line
`"h\n"` (codes 104, 10). -/
theorem C10_in_empty_refill_witness :
    ((NewMachine [20, 32768] [[104, 10]]).input.headD [] = [] →
      (NewMachine [20, 32768] [[104, 10]]).Step = none) ∧
    (∀ c tl rest,
      (NewMachine [20, 32768] [[104, 10]]).input = (c :: tl) :: rest →
      isReg 32768 = true → (NewMachine [20, 32768] [[104, 10]]).regs.length = 8 →
      ∃ m', (NewMachine [20, 32768] [[104, 10]]).Step = some m' ∧
        m'.regs = (NewMachine [20, 32768] [[104, 10]]).regs.set
          (decipherReg 32768) (c % 65536)) :=
  C10_in_empty_refill (NewMachine [20, 32768] [[104, 10]]) 32768 rfl
    (by rw [getArgs_eq (by decide)
          (by rw [NewMachine_memory_length _ _ (by decide)]; decide)]
        rfl)
    rfl

/-! ### Helpers for the store-range analysis -/

theorem addWord_le (b c : Nat) : addWord b c ≤ 32767 := by
  unfold addWord OVERFLOW_15BIT
  have := Nat.mod_lt ((b + c) % 65536) (show 0 < 32768 by norm_num)
  omega

theorem multWord_le (b c : Nat) : multWord b c ≤ 32767 := by
  unfold multWord OVERFLOW_15BIT
  have := Nat.mod_lt ((b * c) % 65536) (show 0 < 32768 by norm_num)
  omega

theorem stores_reduced_unchanged {m m' : Machine}
    (hregs : ∀ x ∈ m.regs, x ≤ 32767)
    (hr : m'.regs = m.regs) (hm : m'.memory = m.memory) :
    (∀ x ∈ m'.regs, x ≤ 32767) ∧
    (∀ i x, m'.memory.get? i = some x → m.memory.get? i = some x ∨ x ≤ 32767) := by
  constructor
  · rw [hr]; exact hregs
  · intro i x hx
    rw [hm] at hx
    exact Or.inl hx

theorem stores_reduced_of_write {m mw m' : Machine} {a0 v k : Nat}
    (hregs : ∀ x ∈ m.regs, x ≤ 32767)
    (hwregs : mw.regs = m.regs) (hwmem : mw.memory = m.memory)
    (hv : v ≤ 32767)
    (h : (mw.writeDest a0 v).bind
      (fun m3 => some { m3 with pc := m3.nextProgramCounter k }) = some m') :
    (∀ x ∈ m'.regs, x ≤ 32767) ∧
    (∀ i x, m'.memory.get? i = some x → m.memory.get? i = some x ∨ x ≤ 32767) := by
  obtain ⟨hr, hnr, _, _, _, _, _⟩ := stepWrite_elim h
  by_cases hreg : isReg a0 = true
  · obtain ⟨h1, h2⟩ := hr hreg
    constructor
    · rw [h1, hwregs]
      exact mem_set_le hregs hv
    · intro i x hx
      rw [h2, hwmem] at hx
      exact Or.inl hx
  · obtain ⟨h1, h2⟩ := hnr (eq_false_of_ne_true hreg)
    constructor
    · rw [h2, hwregs]
      exact hregs
    · intro i x hx
      rw [h1, hwmem] at hx
      rcases get?_set_cases hx with h3 | h3
      · exact Or.inl h3
      · right
        omega

theorem list_len1 {l : List Nat} (h : l.length = 1) : ∃ a, l = [a] := by
  rcases l with _ | ⟨a, _ | t⟩
  · simp at h
  · exact ⟨a, rfl⟩
  · simp at h

theorem list_len2 {l : List Nat} (h : l.length = 2) : ∃ a b, l = [a, b] := by
  rcases l with _ | ⟨a, _ | ⟨b, _ | t⟩⟩
  · simp at h
  · simp at h
  · exact ⟨a, b, rfl⟩
  · simp at h

theorem list_len3 {l : List Nat} (h : l.length = 3) : ∃ a b c, l = [a, b, c] := by
  rcases l with _ | ⟨a, _ | ⟨b, _ | ⟨c, _ | t⟩⟩⟩
  · simp at h
  · simp at h
  · simp at h
  · exact ⟨a, b, c, rfl⟩
  · simp at h

theorem lor_le_15 {b c : Nat} (hb : b ≤ 32767) (hc : c ≤ 32767) : b.lor c ≤ 32767 := by
  have e : (2 : Nat) ^ 15 = 32768 := by norm_num
  have h1 : b < 2 ^ 15 := by omega
  have h2 : c < 2 ^ 15 := by omega
  have h3 := Nat.or_lt_two_pow h1 h2
  have h4 : b ||| c = b.lor c := rfl
  omega

theorem xor_le_15 {b c : Nat} (hb : b ≤ 32767) (hc : c ≤ 32767) : b.xor c ≤ 32767 := by
  have e : (2 : Nat) ^ 15 = 32768 := by norm_num
  have h1 : b < 2 ^ 15 := by omega
  have h2 : c < 2 ^ 15 := by omega
  have h3 := Nat.xor_lt_two_pow h1 h2
  have h4 : b ^^^ c = b.xor c := rfl
  omega

/-- Counterexample for C3 as stated: the image `[15, 32768, 1]` (RMEM
reg0 := memory[1]) copies the raw word 32768 — an operand-reference word
of the program image itself — into register 0 in a single step, so a
register holds a value outside `[0, 32767]` after a step. -/
theorem C3_counterexample_rmem_raw_word :
    ((NewMachine [15, 32768, 1] []).Step).map (fun s => s.regs.getD 0 0)
      = some 32768 ∧ ¬ (32768 : Nat) ≤ 32767 := by
  have hop : (NewMachine [15, 32768, 1] []).memory.get?
      (NewMachine [15, 32768, 1] []).pc = some 15 := rfl
  have hargs : (NewMachine [15, 32768, 1] []).getArgs 15 = some [32768, 1] := by
    rw [getArgs_eq (by decide)
      (by rw [NewMachine_memory_length _ _ (by decide)]; decide)]
    rfl
  have hread : (NewMachine [15, 32768, 1] []).readArg 1
      = (1, NewMachine [15, 32768, 1] []) := rfl
  have hd := step_dispatch hop hargs
  rw [show (NewMachine [15, 32768, 1] []).stepCase 15 [32768, 1]
      = (NewMachine [15, 32768, 1] []).doRMEM [32768, 1] from rfl] at hd
  rw [doRMEM_eq hread] at hd
  rw [show (NewMachine [15, 32768, 1] []).memory.get? 1 = some 32768 from rfl] at hd
  simp only [Option.bind_eq_bind, Option.some_bind] at hd
  rw [setCell_eq_some _ (by decide)] at hd
  simp only [Option.bind_eq_bind, Option.some_bind] at hd
  rw [hd]
  exact ⟨by decide, by decide⟩

/-- C3 (amended): for every instruction other than RMEM, POP, and IN, a
step from a state whose registers are all in `[0, 32767]` keeps every
register in `[0, 32767]`, and every memory cell it changes receives a
value in `[0, 32767]`.  (RMEM copies a raw, unmasked memory word; POP can
store a CALL-pushed return address `≥ 32768`; IN stores a truncated input
rune; each of these can exceed 32767.) -/
theorem C3_stores_reduced (m m' : Machine) (op : Nat)
    (hop : m.memory.get? m.pc = some op)
    (hne3 : op ≠ 3) (hne15 : op ≠ 15) (hne20 : op ≠ 20)
    (hregs : ∀ v ∈ m.regs, v ≤ 32767)
    (hstep : m.Step = some m') :
    (∀ v ∈ m'.regs, v ≤ 32767) ∧
    (∀ i v, m'.memory.get? i = some v → m.memory.get? i = some v ∨ v ≤ 32767) := by
  cases hga : m.getArgs op with
  | none =>
    unfold Machine.Step at hstep
    rw [hop] at hstep
    simp only [Option.bind_eq_bind, Option.some_bind] at hstep
    rw [hga] at hstep
    exact absurd hstep (by simp)
  | some args =>
    have hd := step_dispatch hop hga
    rw [hd] at hstep
    have hlen := getArgs_length hga
    by_cases h22 : op < 22
    case neg =>
      rw [stepCase_unknown (by omega)] at hstep
      simp only [Option.some_inj] at hstep
      subst hstep
      exact stores_reduced_unchanged hregs rfl rfl
    case pos =>
      interval_cases op
      -- 0: HALT
      · simp only [show m.stepCase 0 args = some m.Halt from rfl,
          Option.some_inj] at hstep
        subst hstep
        exact stores_reduced_unchanged hregs rfl rfl
      -- 1: SET
      · obtain ⟨a0, a1, rfl⟩ := list_len2 hlen
        rw [show m.stepCase 1 [a0, a1] = m.doSET [a0, a1] from rfl] at hstep
        rw [doSET_eq (readArg_eta m a1)] at hstep
        cases hc : setCell (m.readArg a1).2.regs (decipherReg a0) (m.readArg a1).1 with
        | none => rw [hc] at hstep; exact absurd hstep (by simp)
        | some regs =>
          rw [hc] at hstep
          simp only [Option.bind_eq_bind, Option.some_bind, Option.some_inj] at hstep
          subst hstep
          have hsc := setCell_some_elim hc
          subst hsc
          constructor
          · show ∀ x ∈ (m.readArg a1).2.regs.set (decipherReg a0) (m.readArg a1).1,
              x ≤ 32767
            rw [readArg_snd_regs]
            exact mem_set_le hregs (readArg_fst_le hregs a1)
          · intro i x hx
            rw [show ({ (m.readArg a1).2 with
                regs := (m.readArg a1).2.regs.set (decipherReg a0) (m.readArg a1).1,
                pc := (m.readArg a1).2.nextProgramCounter 1 } : Machine).memory
              = (m.readArg a1).2.memory from rfl, readArg_snd_memory] at hx
            exact Or.inl hx
      -- 2: PUSH
      · obtain ⟨a0, rfl⟩ := list_len1 hlen
        rw [show m.stepCase 2 [a0] = m.doPUSH [a0] from rfl] at hstep
        rw [doPUSH_eq (readArg_eta m a0)] at hstep
        simp only [Option.some_inj] at hstep
        subst hstep
        exact stores_reduced_unchanged hregs (readArg_snd_regs m a0)
          (readArg_snd_memory m a0)
      -- 3: POP (excluded)
      · exact absurd rfl hne3
      -- 4: EQ
      · obtain ⟨a0, a1, a2, rfl⟩ := list_len3 hlen
        rw [show m.stepCase 4 [a0, a1, a2] = m.doEQ [a0, a1, a2] from rfl] at hstep
        rw [doEQ_eq (readArg_eta m a1)
          (readArg_eta (m.readArg a1).2 a2)] at hstep
        refine stores_reduced_of_write hregs ?_ ?_ ?_ hstep
        · rw [readArg_snd_regs, readArg_snd_regs]
        · rw [readArg_snd_memory, readArg_snd_memory]
        · split <;> omega
      -- 5: GT
      · obtain ⟨a0, a1, a2, rfl⟩ := list_len3 hlen
        rw [show m.stepCase 5 [a0, a1, a2] = m.doGT [a0, a1, a2] from rfl] at hstep
        rw [doGT_eq (readArg_eta m a1)
          (readArg_eta (m.readArg a1).2 a2)] at hstep
        refine stores_reduced_of_write hregs ?_ ?_ ?_ hstep
        · rw [readArg_snd_regs, readArg_snd_regs]
        · rw [readArg_snd_memory, readArg_snd_memory]
        · split <;> omega
      -- 6: JMP
      · obtain ⟨a0, rfl⟩ := list_len1 hlen
        rw [show m.stepCase 6 [a0] = m.doJMP [a0] from rfl] at hstep
        rw [doJMP_eq (readArg_eta m a0)] at hstep
        simp only [Option.some_inj] at hstep
        subst hstep
        exact stores_reduced_unchanged hregs (readArg_snd_regs m a0)
          (readArg_snd_memory m a0)
      -- 7: JT
      · obtain ⟨a0, a1, rfl⟩ := list_len2 hlen
        rw [show m.stepCase 7 [a0, a1] = m.doJT [a0, a1] from rfl] at hstep
        by_cases hz : (m.readArg a0).1 = 0
        · have hpat : m.readArg a0 = (0, (m.readArg a0).2) := by
            rw [← hz]
          rw [doJT_fall hpat] at hstep
          simp only [Option.some_inj] at hstep
          subst hstep
          exact stores_reduced_unchanged hregs (readArg_snd_regs m a0)
            (readArg_snd_memory m a0)
        · rw [doJT_taken (readArg_eta m a0) hz
            (readArg_eta (m.readArg a0).2 a1)] at hstep
          simp only [Option.some_inj] at hstep
          subst hstep
          refine stores_reduced_unchanged hregs ?_ ?_
          · show ((m.readArg a0).2.readArg a1).2.regs = m.regs
            rw [readArg_snd_regs, readArg_snd_regs]
          · show ((m.readArg a0).2.readArg a1).2.memory = m.memory
            rw [readArg_snd_memory, readArg_snd_memory]
      -- 8: JF
      · obtain ⟨a0, a1, rfl⟩ := list_len2 hlen
        rw [show m.stepCase 8 [a0, a1] = m.doJF [a0, a1] from rfl] at hstep
        by_cases hz : (m.readArg a0).1 = 0
        · have hpat : m.readArg a0 = (0, (m.readArg a0).2) := by
            rw [← hz]
          rw [doJF_taken hpat (readArg_eta (m.readArg a0).2 a1)] at hstep
          simp only [Option.some_inj] at hstep
          subst hstep
          refine stores_reduced_unchanged hregs ?_ ?_
          · show ((m.readArg a0).2.readArg a1).2.regs = m.regs
            rw [readArg_snd_regs, readArg_snd_regs]
          · show ((m.readArg a0).2.readArg a1).2.memory = m.memory
            rw [readArg_snd_memory, readArg_snd_memory]
        · rw [doJF_fall (readArg_eta m a0) hz] at hstep
          simp only [Option.some_inj] at hstep
          subst hstep
          exact stores_reduced_unchanged hregs (readArg_snd_regs m a0)
            (readArg_snd_memory m a0)
      -- 9: ADD
      · obtain ⟨a0, a1, a2, rfl⟩ := list_len3 hlen
        rw [show m.stepCase 9 [a0, a1, a2] = m.doADD [a0, a1, a2] from rfl] at hstep
        rw [doADD_eq (readArg_eta m a1)
          (readArg_eta (m.readArg a1).2 a2)] at hstep
        refine stores_reduced_of_write hregs ?_ ?_ (addWord_le _ _) hstep
        · rw [readArg_snd_regs, readArg_snd_regs]
        · rw [readArg_snd_memory, readArg_snd_memory]
      -- 10: MULT
      · obtain ⟨a0, a1, a2, rfl⟩ := list_len3 hlen
        rw [show m.stepCase 10 [a0, a1, a2] = m.doMULT [a0, a1, a2] from rfl] at hstep
        rw [doMULT_eq (readArg_eta m a1)
          (readArg_eta (m.readArg a1).2 a2)] at hstep
        refine stores_reduced_of_write hregs ?_ ?_ (multWord_le _ _) hstep
        · rw [readArg_snd_regs, readArg_snd_regs]
        · rw [readArg_snd_memory, readArg_snd_memory]
      -- 11: MOD
      · obtain ⟨a0, a1, a2, rfl⟩ := list_len3 hlen
        rw [show m.stepCase 11 [a0, a1, a2] = m.doMOD [a0, a1, a2] from rfl] at hstep
        by_cases hz : ((m.readArg a1).2.readArg a2).1 = 0
        · have hpat : (m.readArg a1).2.readArg a2 = (0, ((m.readArg a1).2.readArg a2).2) := by
            rw [← hz]
          rw [doMOD_zero (readArg_eta m a1) hpat] at hstep
          exact absurd hstep (by simp)
        · rw [doMOD_eq (readArg_eta m a1)
            (readArg_eta (m.readArg a1).2 a2) hz] at hstep
          have hb := readArg_fst_le hregs a1
          refine stores_reduced_of_write hregs ?_ ?_ ?_ hstep
          · rw [readArg_snd_regs, readArg_snd_regs]
          · rw [readArg_snd_memory, readArg_snd_memory]
          · have := Nat.mod_le (m.readArg a1).1 ((m.readArg a1).2.readArg a2).1
            omega
      -- 12: AND
      · obtain ⟨a0, a1, a2, rfl⟩ := list_len3 hlen
        rw [show m.stepCase 12 [a0, a1, a2] = m.doAND [a0, a1, a2] from rfl] at hstep
        rw [doAND_eq (readArg_eta m a1)
          (readArg_eta (m.readArg a1).2 a2)] at hstep
        have hb := readArg_fst_le hregs a1
        refine stores_reduced_of_write hregs ?_ ?_ ?_ hstep
        · rw [readArg_snd_regs, readArg_snd_regs]
        · rw [readArg_snd_memory, readArg_snd_memory]
        · have h3 := Nat.and_le_left (n := (m.readArg a1).1)
            (m := ((m.readArg a1).2.readArg a2).1)
          have h4 : (m.readArg a1).1 &&& ((m.readArg a1).2.readArg a2).1
              = (m.readArg a1).1.land ((m.readArg a1).2.readArg a2).1 := rfl
          omega
      -- 13: OR
      · obtain ⟨a0, a1, a2, rfl⟩ := list_len3 hlen
        rw [show m.stepCase 13 [a0, a1, a2] = m.doOR [a0, a1, a2] from rfl] at hstep
        rw [doOR_eq (readArg_eta m a1)
          (readArg_eta (m.readArg a1).2 a2)] at hstep
        have hb := readArg_fst_le hregs a1
        have hc2 : ∀ x ∈ (m.readArg a1).2.regs, x ≤ 32767 := by
          rw [readArg_snd_regs]; exact hregs
        have hc := readArg_fst_le hc2 a2
        refine stores_reduced_of_write hregs ?_ ?_ (lor_le_15 hb hc) hstep
        · rw [readArg_snd_regs, readArg_snd_regs]
        · rw [readArg_snd_memory, readArg_snd_memory]
      -- 14: NOT
      · obtain ⟨a0, a1, rfl⟩ := list_len2 hlen
        rw [show m.stepCase 14 [a0, a1] = m.doNOT [a0, a1] from rfl] at hstep
        rw [doNOT_eq (readArg_eta m a1)] at hstep
        have hb := readArg_fst_le hregs a1
        refine stores_reduced_of_write hregs ?_ ?_
          (xor_le_15 hb (by decide)) hstep
        · rw [readArg_snd_regs]
        · rw [readArg_snd_memory]
      -- 15: RMEM (excluded)
      · exact absurd rfl hne15
      -- 16: WMEM
      · obtain ⟨a0, a1, rfl⟩ := list_len2 hlen
        rw [show m.stepCase 16 [a0, a1] = m.doWMEM [a0, a1] from rfl] at hstep
        rw [doWMEM_eq (readArg_eta m a0)
          (readArg_eta (m.readArg a0).2 a1)] at hstep
        cases hc : setCell ((m.readArg a0).2.readArg a1).2.memory (m.readArg a0).1
            (((m.readArg a0).2.readArg a1).1) with
        | none => rw [hc] at hstep; exact absurd hstep (by simp)
        | some memory =>
          rw [hc] at hstep
          simp only [Option.bind_eq_bind, Option.some_bind, Option.some_inj] at hstep
          subst hstep
          have hsc := setCell_some_elim hc
          subst hsc
          have hregs1 : ∀ x ∈ (m.readArg a0).2.regs, x ≤ 32767 := by
            rw [readArg_snd_regs]; exact hregs
          have hvle := readArg_fst_le hregs1 a1
          constructor
          · show ∀ x ∈ ((m.readArg a0).2.readArg a1).2.regs, x ≤ 32767
            rw [readArg_snd_regs, readArg_snd_regs]
            exact hregs
          · intro i x hx
            rw [show ({ ((m.readArg a0).2.readArg a1).2 with
                memory := ((m.readArg a0).2.readArg a1).2.memory.set (m.readArg a0).1
                  (((m.readArg a0).2.readArg a1).1),
                pc := (((m.readArg a0).2.readArg a1).2).nextProgramCounter 16 } : Machine).memory
              = ((m.readArg a0).2.readArg a1).2.memory.set (m.readArg a0).1
                  (((m.readArg a0).2.readArg a1).1) from rfl] at hx
            rw [readArg_snd_memory, readArg_snd_memory] at hx
            rcases get?_set_cases hx with h3 | h3
            · exact Or.inl h3
            · right; omega
      -- 17: CALL
      · obtain ⟨a0, rfl⟩ := list_len1 hlen
        rw [show m.stepCase 17 [a0] = m.doCALL [a0] from rfl] at hstep
        rw [doCALL_eq (readArg_eta { m with stack := m.nextProgramCounter 17 :: m.stack } a0)] at hstep
        simp only [Option.some_inj] at hstep
        subst hstep
        refine stores_reduced_unchanged hregs ?_ ?_
        · show (Machine.readArg { m with stack := m.nextProgramCounter 17 :: m.stack } a0).2.regs
            = m.regs
          rw [readArg_snd_regs]
        · show (Machine.readArg { m with stack := m.nextProgramCounter 17 :: m.stack } a0).2.memory
            = m.memory
          rw [readArg_snd_memory]
      -- 18: RET
      · cases hs : m.stack with
        | nil =>
          rw [show m.stepCase 18 args = m.doRET from rfl, doRET_nil hs] at hstep
          simp only [Option.some_inj] at hstep
          subst hstep
          exact stores_reduced_unchanged hregs rfl rfl
        | cons npc rest =>
          rw [show m.stepCase 18 args = m.doRET from rfl, doRET_cons hs] at hstep
          simp only [Option.some_inj] at hstep
          subst hstep
          exact stores_reduced_unchanged hregs rfl rfl
      -- 19: OUT
      · obtain ⟨a0, rfl⟩ := list_len1 hlen
        rw [show m.stepCase 19 [a0] = m.doOUT [a0] from rfl] at hstep
        rw [doOUT_eq (readArg_eta m a0)] at hstep
        simp only [Option.some_inj] at hstep
        subst hstep
        exact stores_reduced_unchanged hregs (readArg_snd_regs m a0)
          (readArg_snd_memory m a0)
      -- 20: IN (excluded)
      · exact absurd rfl hne20
      -- 21: NOOP
      · simp only [show m.stepCase 21 args
          = some { m with pc := m.nextProgramCounter 21 } from rfl,
          Option.some_inj] at hstep
        subst hstep
        exact stores_reduced_unchanged hregs rfl rfl

/-- Counterexample for C4 as stated: WMEM with destination operand 32768
(which denotes register 0, holding 0) does not write register 0 — it
read-resolves the operand and writes memory[0] := 7, leaving all
registers unchanged. -/
theorem C4_counterexample_wmem_read_resolves :
    ((NewMachine [16, 32768, 7] []).Step).map (fun s => (s.regs, s.memory.get? 0))
      = some (List.replicate 8 0, some 7) ∧
    isReg 32768 = true := by
  have hop : (NewMachine [16, 32768, 7] []).memory.get?
      (NewMachine [16, 32768, 7] []).pc = some 16 := rfl
  have hargs : (NewMachine [16, 32768, 7] []).getArgs 16 = some [32768, 7] := by
    rw [getArgs_eq (by decide)
      (by rw [NewMachine_memory_length _ _ (by decide)]; decide)]
    rfl
  have h1 : (NewMachine [16, 32768, 7] []).readArg 32768
      = (0, NewMachine [16, 32768, 7] []) := rfl
  have h2 : (NewMachine [16, 32768, 7] []).readArg 7
      = (7, NewMachine [16, 32768, 7] []) := rfl
  have hd := step_dispatch hop hargs
  rw [show (NewMachine [16, 32768, 7] []).stepCase 16 [32768, 7]
      = (NewMachine [16, 32768, 7] []).doWMEM [32768, 7] from rfl] at hd
  rw [doWMEM_eq h1 h2] at hd
  rw [setCell_eq_some _
    (by rw [NewMachine_memory_length _ _ (by decide)]; decide)] at hd
  simp only [Option.bind_eq_bind, Option.some_bind] at hd
  rw [hd]
  exact ⟨rfl, by decide⟩

/-- C4 (amended): for POP and every arithmetic/logical instruction (EQ,
GT, ADD, MULT, MOD, AND, OR, NOT), the destination operand is never
read-resolved: a destination in `[32768, 32775]` targets register
`operand − 32768` and leaves memory untouched, and any other destination
is used raw as the memory address, leaving registers untouched.  WMEM, by
contrast, read-resolves its address operand: it writes memory at
`read(a)` and never writes a register. -/
theorem C4_write_target_resolution :
    (∀ (m m' : Machine) (op a0 : Nat) (rest : List Nat),
      (op = 3 ∨ op = 4 ∨ op = 5 ∨ op = 9 ∨ op = 10 ∨ op = 11 ∨ op = 12 ∨
        op = 13 ∨ op = 14) →
      m.memory.get? m.pc = some op →
      m.getArgs op = some (a0 :: rest) →
      (op = 3 → m.stack ≠ []) →
      m.Step = some m' →
      ((isReg a0 = true →
          ∃ v, m'.regs = m.regs.set (a0 - 32768) v ∧ m'.memory = m.memory) ∧
       (isReg a0 = false →
          ∃ v, m'.memory = m.memory.set a0 v ∧ m'.regs = m.regs))) ∧
    (∀ (m m' : Machine) (a0 a1 : Nat),
      m.memory.get? m.pc = some 16 →
      m.getArgs 16 = some [a0, a1] →
      m.Step = some m' →
      m'.regs = m.regs ∧ ∃ v, m'.memory = m.memory.set ((m.readArg a0).1) v) := by
  constructor
  · intro m m' op a0 rest hopv hop hargs hpop hstep
    have hd := step_dispatch hop hargs
    rw [hd] at hstep
    have hlen := getArgs_length hargs
    have finish : ∀ (mw : Machine) (v k : Nat),
        mw.regs = m.regs → mw.memory = m.memory →
        (mw.writeDest a0 v).bind
          (fun m3 => some { m3 with pc := m3.nextProgramCounter k }) = some m' →
        ((isReg a0 = true →
            ∃ w, m'.regs = m.regs.set (a0 - 32768) w ∧ m'.memory = m.memory) ∧
         (isReg a0 = false →
            ∃ w, m'.memory = m.memory.set a0 w ∧ m'.regs = m.regs)) := by
      intro mw v k hwregs hwmem h
      obtain ⟨hr, hnr, _, _, _, _, _⟩ := stepWrite_elim h
      constructor
      · intro hreg
        obtain ⟨e1, e2⟩ := hr hreg
        refine ⟨v, ?_, ?_⟩
        · rw [e1, hwregs, decipherReg_of_isReg hreg]
        · rw [e2, hwmem]
      · intro hreg
        obtain ⟨e1, e2⟩ := hnr hreg
        refine ⟨v, ?_, ?_⟩
        · rw [e1, hwmem]
        · rw [e2, hwregs]
    rcases hopv with rfl | rfl | rfl | rfl | rfl | rfl | rfl | rfl | rfl
    · -- POP
      have hrest : rest = [] := by simpa [argsForOp] using hlen
      subst hrest
      cases hs : m.stack with
      | nil => exact absurd hs (hpop rfl)
      | cons v rest2 =>
        rw [show m.stepCase 3 [a0] = m.doPOP [a0] from rfl] at hstep
        rw [doPOP_cons hs] at hstep
        exact finish { m with stack := rest2 } v 3 rfl rfl hstep
    · -- EQ
      obtain ⟨b1, b2, rfl⟩ := list_len2 (show rest.length = 2 by simp [argsForOp] at hlen; omega)
      rw [show m.stepCase 4 (a0 :: [b1, b2]) = m.doEQ [a0, b1, b2] from rfl] at hstep
      rw [doEQ_eq (readArg_eta m b1) (readArg_eta (m.readArg b1).2 b2)] at hstep
      exact finish ((m.readArg b1).2.readArg b2).2 _ _
        (by rw [readArg_snd_regs, readArg_snd_regs])
        (by rw [readArg_snd_memory, readArg_snd_memory]) hstep
    · -- GT
      obtain ⟨b1, b2, rfl⟩ := list_len2 (show rest.length = 2 by simp [argsForOp] at hlen; omega)
      rw [show m.stepCase 5 (a0 :: [b1, b2]) = m.doGT [a0, b1, b2] from rfl] at hstep
      rw [doGT_eq (readArg_eta m b1) (readArg_eta (m.readArg b1).2 b2)] at hstep
      exact finish ((m.readArg b1).2.readArg b2).2 _ _
        (by rw [readArg_snd_regs, readArg_snd_regs])
        (by rw [readArg_snd_memory, readArg_snd_memory]) hstep
    · -- ADD
      obtain ⟨b1, b2, rfl⟩ := list_len2 (show rest.length = 2 by simp [argsForOp] at hlen; omega)
      rw [show m.stepCase 9 (a0 :: [b1, b2]) = m.doADD [a0, b1, b2] from rfl] at hstep
      rw [doADD_eq (readArg_eta m b1) (readArg_eta (m.readArg b1).2 b2)] at hstep
      exact finish ((m.readArg b1).2.readArg b2).2 _ _
        (by rw [readArg_snd_regs, readArg_snd_regs])
        (by rw [readArg_snd_memory, readArg_snd_memory]) hstep
    · -- MULT
      obtain ⟨b1, b2, rfl⟩ := list_len2 (show rest.length = 2 by simp [argsForOp] at hlen; omega)
      rw [show m.stepCase 10 (a0 :: [b1, b2]) = m.doMULT [a0, b1, b2] from rfl] at hstep
      rw [doMULT_eq (readArg_eta m b1) (readArg_eta (m.readArg b1).2 b2)] at hstep
      exact finish ((m.readArg b1).2.readArg b2).2 _ _
        (by rw [readArg_snd_regs, readArg_snd_regs])
        (by rw [readArg_snd_memory, readArg_snd_memory]) hstep
    · -- MOD
      obtain ⟨b1, b2, rfl⟩ := list_len2 (show rest.length = 2 by simp [argsForOp] at hlen; omega)
      rw [show m.stepCase 11 (a0 :: [b1, b2]) = m.doMOD [a0, b1, b2] from rfl] at hstep
      by_cases hz : ((m.readArg b1).2.readArg b2).1 = 0
      · have hpat : (m.readArg b1).2.readArg b2
            = (0, ((m.readArg b1).2.readArg b2).2) := by
          rw [← hz]
        rw [doMOD_zero (readArg_eta m b1) hpat] at hstep
        exact absurd hstep (by simp)
      · rw [doMOD_eq (readArg_eta m b1) (readArg_eta (m.readArg b1).2 b2) hz] at hstep
        exact finish ((m.readArg b1).2.readArg b2).2 _ _
          (by rw [readArg_snd_regs, readArg_snd_regs])
          (by rw [readArg_snd_memory, readArg_snd_memory]) hstep
    · -- AND
      obtain ⟨b1, b2, rfl⟩ := list_len2 (show rest.length = 2 by simp [argsForOp] at hlen; omega)
      rw [show m.stepCase 12 (a0 :: [b1, b2]) = m.doAND [a0, b1, b2] from rfl] at hstep
      rw [doAND_eq (readArg_eta m b1) (readArg_eta (m.readArg b1).2 b2)] at hstep
      exact finish ((m.readArg b1).2.readArg b2).2 _ _
        (by rw [readArg_snd_regs, readArg_snd_regs])
        (by rw [readArg_snd_memory, readArg_snd_memory]) hstep
    · -- OR
      obtain ⟨b1, b2, rfl⟩ := list_len2 (show rest.length = 2 by simp [argsForOp] at hlen; omega)
      rw [show m.stepCase 13 (a0 :: [b1, b2]) = m.doOR [a0, b1, b2] from rfl] at hstep
      rw [doOR_eq (readArg_eta m b1) (readArg_eta (m.readArg b1).2 b2)] at hstep
      exact finish ((m.readArg b1).2.readArg b2).2 _ _
        (by rw [readArg_snd_regs, readArg_snd_regs])
        (by rw [readArg_snd_memory, readArg_snd_memory]) hstep
    · -- NOT
      obtain ⟨b1, rfl⟩ := list_len1 (show rest.length = 1 by simp [argsForOp] at hlen; omega)
      rw [show m.stepCase 14 (a0 :: [b1]) = m.doNOT [a0, b1] from rfl] at hstep
      rw [doNOT_eq (readArg_eta m b1)] at hstep
      exact finish (m.readArg b1).2 _ _ (by rw [readArg_snd_regs])
        (by rw [readArg_snd_memory]) hstep
  · intro m m' a0 a1 hop hargs hstep
    have hd := step_dispatch hop hargs
    rw [show m.stepCase 16 [a0, a1] = m.doWMEM [a0, a1] from rfl] at hd
    rw [doWMEM_eq (readArg_eta m a0) (readArg_eta (m.readArg a0).2 a1)] at hd
    rw [hd] at hstep
    cases hc : setCell ((m.readArg a0).2.readArg a1).2.memory (m.readArg a0).1
        (((m.readArg a0).2.readArg a1).1) with
    | none => rw [hc] at hstep; exact absurd hstep (by simp)
    | some memory =>
      rw [hc] at hstep
      simp only [Option.bind_eq_bind, Option.some_bind, Option.some_inj] at hstep
      subst hstep
      have hsc := setCell_some_elim hc
      subst hsc
      constructor
      · show ((m.readArg a0).2.readArg a1).2.regs = m.regs
        rw [readArg_snd_regs, readArg_snd_regs]
      · refine ⟨((m.readArg a0).2.readArg a1).1, ?_⟩
        show ((m.readArg a0).2.readArg a1).2.memory.set (m.readArg a0).1
          (((m.readArg a0).2.readArg a1).1) = _
        rw [readArg_snd_memory, readArg_snd_memory]

/-- Witness for C4: the POP clause instantiated at a machine with image
`[3, 32768]` and stack `[5]`: POP writes 5 into register 0. -/
theorem C4_write_target_resolution_witness :
    (isReg 32768 = true →
      ∃ v, ({ NewMachine [3, 32768] [] with
              regs := (List.replicate 8 0).set 0 5, pc := 2 } : Machine).regs
        = ({ NewMachine [3, 32768] [] with stack := [5] } : Machine).regs.set
            (32768 - 32768) v ∧
        ({ NewMachine [3, 32768] [] with
           regs := (List.replicate 8 0).set 0 5, pc := 2 } : Machine).memory
        = ({ NewMachine [3, 32768] [] with stack := [5] } : Machine).memory) ∧
    (isReg 32768 = false →
      ∃ v, ({ NewMachine [3, 32768] [] with
              regs := (List.replicate 8 0).set 0 5, pc := 2 } : Machine).memory
        = ({ NewMachine [3, 32768] [] with stack := [5] } : Machine).memory.set
            32768 v ∧
        ({ NewMachine [3, 32768] [] with
           regs := (List.replicate 8 0).set 0 5, pc := 2 } : Machine).regs
        = ({ NewMachine [3, 32768] [] with stack := [5] } : Machine).regs) := by
  refine C4_write_target_resolution.1
    { NewMachine [3, 32768] [] with stack := [5] }
    { NewMachine [3, 32768] [] with regs := (List.replicate 8 0).set 0 5, pc := 2 }
    3 32768 [] (Or.inl rfl) rfl ?_ (fun _ => by decide) ?_
  · rw [getArgs_eq (by decide) ?_]
    · rfl
    · show (NewMachine [3, 32768] []).pc + 1 + argsForOp 3
        ≤ (NewMachine [3, 32768] []).memory.length
      rw [NewMachine_memory_length _ _ (by decide)]
      decide
  · rw [step_dispatch
      (rfl : ({ NewMachine [3, 32768] [] with stack := [5] } : Machine).memory.get?
        ({ NewMachine [3, 32768] [] with stack := [5] } : Machine).pc = some 3)
      (?_ : Machine.getArgs
        { NewMachine [3, 32768] [] with stack := [5] } 3 = some [32768])]
    · rw [show Machine.stepCase { NewMachine [3, 32768] [] with stack := [5] } 3 [32768]
          = Machine.doPOP { NewMachine [3, 32768] [] with stack := [5] } [32768] from rfl]
      rw [doPOP_cons (rfl : ({ NewMachine [3, 32768] [] with
        stack := [5] } : Machine).stack = 5 :: [])]
      rw [writeDest_some_of_isReg (by decide) (by decide)]
      simp only [Option.bind_eq_bind, Option.some_bind]
      rfl
    · rw [getArgs_eq (by decide) ?_]
      · rfl
      · show (NewMachine [3, 32768] []).pc + 1 + argsForOp 3
          ≤ (NewMachine [3, 32768] []).memory.length
        rw [NewMachine_memory_length _ _ (by decide)]
        decide

/-- Witness for C3 (amended): a NOOP step from the freshly initialized
image `[21, 0]`. -/
theorem C3_stores_reduced_witness :
    (∀ v ∈ ({ NewMachine [21, 0] [] with pc := 1 } : Machine).regs, v ≤ 32767) ∧
    (∀ i v, ({ NewMachine [21, 0] [] with pc := 1 } : Machine).memory.get? i = some v →
      (NewMachine [21, 0] []).memory.get? i = some v ∨ v ≤ 32767) :=
  C3_stores_reduced (NewMachine [21, 0] [])
    { NewMachine [21, 0] [] with pc := 1 } 21
    rfl (by decide) (by decide) (by decide) (by decide)
    (by rw [step_dispatch
          (rfl : (NewMachine [21, 0] []).memory.get?
            (NewMachine [21, 0] []).pc = some 21)
          (getArgs_zero_ary (rfl : argsForOp 21 = 0))]
        rfl)

/-- The raw operand words that the instruction `op` with fetched operand
list `args` passes to `Machine.readArg` during `Step` — one entry per
`readArg` call site in the corresponding switch arm.  For JT/JF the second
operand is read only on the taken branch, and IN read-resolves its operand
only when it does not denote a register; HALT, POP, RET, NOOP and unknown
opcodes never call `readArg`. -/
def readOperands (m : Machine) (op : Nat) (args : List Nat) : List Nat :=
  if op = 1 then [args.getD 1 0]
  else if op = 2 then [args.getD 0 0]
  else if op = 4 ∨ op = 5 ∨ op = 9 ∨ op = 10 ∨ op = 11 ∨ op = 12 ∨ op = 13 then
    [args.getD 1 0, args.getD 2 0]
  else if op = 6 then [args.getD 0 0]
  else if op = 7 then
    (if (m.readArg (args.getD 0 0)).1 ≠ 0 then [args.getD 0 0, args.getD 1 0]
     else [args.getD 0 0])
  else if op = 8 then
    (if (m.readArg (args.getD 0 0)).1 = 0 then [args.getD 0 0, args.getD 1 0]
     else [args.getD 0 0])
  else if op = 14 ∨ op = 15 then [args.getD 1 0]
  else if op = 16 then [args.getD 0 0, args.getD 1 0]
  else if op = 17 ∨ op = 19 then [args.getD 0 0]
  else if op = 20 then (if isReg (args.getD 0 0) then [] else [args.getD 0 0])
  else []

theorem readOperands_of_ge {m : Machine} {args : List Nat} {op : Nat}
    (h : 22 ≤ op) : readOperands m op args = [] := by
  unfold readOperands
  repeat rw [if_neg (by omega)]

theorem option_bind_eq_some {α β : Type} {x : Option α} {f : α → Option β} {b : β}
    (h : x.bind f = some b) : ∃ a, x = some a ∧ f a = some b := by
  cases x with
  | none => exact absurd h (by simp)
  | some a => exact ⟨a, rfl, by simpa using h⟩

/-- An IN instruction whose operand is an invalid word (neither a value
nor a register) leaves the machine in the `ERROR` state whenever the arm
completes without panicking. -/
theorem doIN_state_invalid {m m' : Machine} {a0 : Nat}
    (hv : isValue a0 = false) (hr : isReg a0 = false)
    (h : m.doIN [a0] = some m') : m'.state = ERROR := by
  unfold Machine.doIN at h
  simp only [List.get?, Option.bind_eq_bind, Option.some_bind, hr,
    Bool.false_eq_true, if_false] at h
  obtain ⟨c, hc, h⟩ := option_bind_eq_some h
  rw [readArg_of_invalid _ hv hr] at h
  obtain ⟨memory, hmem, h⟩ := option_bind_eq_some h
  simp only [Option.some_inj] at h
  subst h
  rfl

/-- Counterexample for C2 as stated: the image `[2, 32776]` (PUSH of the
invalid word 32776) transitions to `ERROR`, but the instruction is not
abandoned: the stack receives a pushed 0 and `pc` advances to 2, so the
stack and the program counter are not unchanged. -/
theorem C2_counterexample_push_partial_effect :
    ((NewMachine [2, 32776] []).Step).map (fun s => (s.state, s.stack, s.pc))
      = some (ERROR, [0], 2) ∧
    (NewMachine [2, 32776] []).stack = [] ∧ (NewMachine [2, 32776] []).pc = 0 := by
  have hop : (NewMachine [2, 32776] []).memory.get?
      (NewMachine [2, 32776] []).pc = some 2 := rfl
  have hargs : (NewMachine [2, 32776] []).getArgs 2 = some [32776] := by
    rw [getArgs_eq (by decide)
      (by rw [NewMachine_memory_length _ _ (by decide)]; decide)]
    rfl
  have hd := step_dispatch hop hargs
  rw [show (NewMachine [2, 32776] []).stepCase 2 [32776]
      = (NewMachine [2, 32776] []).doPUSH [32776] from rfl] at hd
  rw [doPUSH_eq (readArg_of_invalid _ (by decide) (by decide))] at hd
  rw [hd]
  exact ⟨rfl, rfl, rfl⟩

/-- C2 (amended): whenever an instruction passes a raw word ≥ 32776
(neither a literal value nor a register reference) to operand read
resolution and the step completes without a runtime panic, the machine
transitions to `ERROR`; but the instruction is not abandoned — `readArg`
yields 0 for the invalid word and the arm keeps executing, so partial
effects occur: in particular PUSH with an invalid operand pushes 0 and
advances `pc` by 2. -/
theorem C2_invalid_operand_errors :
    (∀ (m m' : Machine) (op : Nat) (args : List Nat),
      m.memory.get? m.pc = some op → m.getArgs op = some args →
      (∃ a ∈ readOperands m op args, isValue a = false ∧ isReg a = false) →
      m.Step = some m' → m'.state = ERROR) ∧
    (∀ (m : Machine) (a0 : Nat),
      m.memory.get? m.pc = some 2 → m.getArgs 2 = some [a0] →
      isValue a0 = false → isReg a0 = false →
      m.Step = some { m.Error with
                      stack := 0 :: m.stack,
                      pc := (m.pc + 1 + 1) % 65536 }) := by
  constructor
  · intro m m' op args hop hargs hex hstep
    obtain ⟨a, ha, hv, hr⟩ := hex
    have hd := step_dispatch hop hargs
    rw [hd] at hstep
    have hlen := getArgs_length hargs
    by_cases h22 : op < 22
    case neg =>
      rw [readOperands_of_ge (by omega)] at ha
      exact absurd ha (by simp)
    case pos =>
      interval_cases op
      · -- 0: HALT reads nothing
        simp [readOperands] at ha
      · -- 1: SET
        obtain ⟨a0, a1, rfl⟩ := list_len2 hlen
        simp [readOperands] at ha
        subst ha
        rw [show m.stepCase 1 [a0, a] = m.doSET [a0, a] from rfl] at hstep
        rw [doSET_eq (readArg_of_invalid m hv hr)] at hstep
        obtain ⟨regs, hre, hstep⟩ := option_bind_eq_some hstep
        simp only [Option.some_inj] at hstep
        subst hstep
        rfl
      · -- 2: PUSH
        obtain ⟨a0, rfl⟩ := list_len1 hlen
        simp [readOperands] at ha
        subst ha
        rw [show m.stepCase 2 [a] = m.doPUSH [a] from rfl] at hstep
        rw [doPUSH_eq (readArg_of_invalid m hv hr)] at hstep
        simp only [Option.some_inj] at hstep
        subst hstep
        rfl
      · -- 3: POP reads nothing
        simp [readOperands] at ha
      · -- 4: EQ
        obtain ⟨a0, a1, a2, rfl⟩ := list_len3 hlen
        simp [readOperands] at ha
        rw [show m.stepCase 4 [a0, a1, a2] = m.doEQ [a0, a1, a2] from rfl] at hstep
        rcases ha with rfl | rfl
        · rw [doEQ_eq (readArg_of_invalid m hv hr) (readArg_eta m.Error a2)] at hstep
          obtain ⟨_, _, _, hstate, _, _, _⟩ := stepWrite_elim hstep
          rw [hstate]
          exact readArg_snd_state_of_error m.Error a2 rfl
        · rw [doEQ_eq (readArg_eta m a1)
            (readArg_of_invalid (m.readArg a1).2 hv hr)] at hstep
          obtain ⟨_, _, _, hstate, _, _, _⟩ := stepWrite_elim hstep
          rw [hstate]
          rfl
      · -- 5: GT
        obtain ⟨a0, a1, a2, rfl⟩ := list_len3 hlen
        simp [readOperands] at ha
        rw [show m.stepCase 5 [a0, a1, a2] = m.doGT [a0, a1, a2] from rfl] at hstep
        rcases ha with rfl | rfl
        · rw [doGT_eq (readArg_of_invalid m hv hr) (readArg_eta m.Error a2)] at hstep
          obtain ⟨_, _, _, hstate, _, _, _⟩ := stepWrite_elim hstep
          rw [hstate]
          exact readArg_snd_state_of_error m.Error a2 rfl
        · rw [doGT_eq (readArg_eta m a1)
            (readArg_of_invalid (m.readArg a1).2 hv hr)] at hstep
          obtain ⟨_, _, _, hstate, _, _, _⟩ := stepWrite_elim hstep
          rw [hstate]
          rfl
      · -- 6: JMP
        obtain ⟨a0, rfl⟩ := list_len1 hlen
        simp [readOperands] at ha
        subst ha
        rw [show m.stepCase 6 [a] = m.doJMP [a] from rfl] at hstep
        rw [doJMP_eq (readArg_of_invalid m hv hr)] at hstep
        simp only [Option.some_inj] at hstep
        subst hstep
        rfl
      · -- 7: JT
        obtain ⟨a0, a1, rfl⟩ := list_len2 hlen
        rw [show m.stepCase 7 [a0, a1] = m.doJT [a0, a1] from rfl] at hstep
        by_cases hz : (m.readArg a0).1 = 0
        · simp [readOperands, hz] at ha
          subst ha
          rw [doJT_fall (readArg_of_invalid m hv hr)] at hstep
          simp only [Option.some_inj] at hstep
          subst hstep
          rfl
        · simp [readOperands, hz] at ha
          rcases ha with rfl | rfl
          · refine absurd ?_ hz
            rw [readArg_of_invalid m hv hr]
          · rw [doJT_taken (readArg_eta m a0) hz
              (readArg_of_invalid (m.readArg a0).2 hv hr)] at hstep
            simp only [Option.some_inj] at hstep
            subst hstep
            rfl
      · -- 8: JF
        obtain ⟨a0, a1, rfl⟩ := list_len2 hlen
        rw [show m.stepCase 8 [a0, a1] = m.doJF [a0, a1] from rfl] at hstep
        by_cases hz : (m.readArg a0).1 = 0
        · simp [readOperands, hz] at ha
          rcases ha with rfl | rfl
          · rw [doJF_taken (readArg_of_invalid m hv hr)
              (readArg_eta m.Error a1)] at hstep
            simp only [Option.some_inj] at hstep
            subst hstep
            exact readArg_snd_state_of_error m.Error a1 rfl
          · rw [doJF_taken (by rw [← hz])
              (readArg_of_invalid (m.readArg a0).2 hv hr)] at hstep
            simp only [Option.some_inj] at hstep
            subst hstep
            rfl
        · simp [readOperands, hz] at ha
          subst ha
          refine absurd ?_ hz
          rw [readArg_of_invalid m hv hr]
      · -- 9: ADD
        obtain ⟨a0, a1, a2, rfl⟩ := list_len3 hlen
        simp [readOperands] at ha
        rw [show m.stepCase 9 [a0, a1, a2] = m.doADD [a0, a1, a2] from rfl] at hstep
        rcases ha with rfl | rfl
        · rw [doADD_eq (readArg_of_invalid m hv hr) (readArg_eta m.Error a2)] at hstep
          obtain ⟨_, _, _, hstate, _, _, _⟩ := stepWrite_elim hstep
          rw [hstate]
          exact readArg_snd_state_of_error m.Error a2 rfl
        · rw [doADD_eq (readArg_eta m a1)
            (readArg_of_invalid (m.readArg a1).2 hv hr)] at hstep
          obtain ⟨_, _, _, hstate, _, _, _⟩ := stepWrite_elim hstep
          rw [hstate]
          rfl
      · -- 10: MULT
        obtain ⟨a0, a1, a2, rfl⟩ := list_len3 hlen
        simp [readOperands] at ha
        rw [show m.stepCase 10 [a0, a1, a2] = m.doMULT [a0, a1, a2] from rfl] at hstep
        rcases ha with rfl | rfl
        · rw [doMULT_eq (readArg_of_invalid m hv hr) (readArg_eta m.Error a2)] at hstep
          obtain ⟨_, _, _, hstate, _, _, _⟩ := stepWrite_elim hstep
          rw [hstate]
          exact readArg_snd_state_of_error m.Error a2 rfl
        · rw [doMULT_eq (readArg_eta m a1)
            (readArg_of_invalid (m.readArg a1).2 hv hr)] at hstep
          obtain ⟨_, _, _, hstate, _, _, _⟩ := stepWrite_elim hstep
          rw [hstate]
          rfl
      · -- 11: MOD
        obtain ⟨a0, a1, a2, rfl⟩ := list_len3 hlen
        simp [readOperands] at ha
        rw [show m.stepCase 11 [a0, a1, a2] = m.doMOD [a0, a1, a2] from rfl] at hstep
        rcases ha with rfl | rfl
        · by_cases hz : (Machine.readArg m.Error a2).1 = 0
          · rw [doMOD_zero (readArg_of_invalid m hv hr) (by rw [← hz])] at hstep
            exact absurd hstep (by simp)
          · rw [doMOD_eq (readArg_of_invalid m hv hr)
              (readArg_eta m.Error a2) hz] at hstep
            obtain ⟨_, _, _, hstate, _, _, _⟩ := stepWrite_elim hstep
            rw [hstate]
            exact readArg_snd_state_of_error m.Error a2 rfl
        · rw [doMOD_zero (readArg_eta m a1)
            (readArg_of_invalid (m.readArg a1).2 hv hr)] at hstep
          exact absurd hstep (by simp)
      · -- 12: AND
        obtain ⟨a0, a1, a2, rfl⟩ := list_len3 hlen
        simp [readOperands] at ha
        rw [show m.stepCase 12 [a0, a1, a2] = m.doAND [a0, a1, a2] from rfl] at hstep
        rcases ha with rfl | rfl
        · rw [doAND_eq (readArg_of_invalid m hv hr) (readArg_eta m.Error a2)] at hstep
          obtain ⟨_, _, _, hstate, _, _, _⟩ := stepWrite_elim hstep
          rw [hstate]
          exact readArg_snd_state_of_error m.Error a2 rfl
        · rw [doAND_eq (readArg_eta m a1)
            (readArg_of_invalid (m.readArg a1).2 hv hr)] at hstep
          obtain ⟨_, _, _, hstate, _, _, _⟩ := stepWrite_elim hstep
          rw [hstate]
          rfl
      · -- 13: OR
        obtain ⟨a0, a1, a2, rfl⟩ := list_len3 hlen
        simp [readOperands] at ha
        rw [show m.stepCase 13 [a0, a1, a2] = m.doOR [a0, a1, a2] from rfl] at hstep
        rcases ha with rfl | rfl
        · rw [doOR_eq (readArg_of_invalid m hv hr) (readArg_eta m.Error a2)] at hstep
          obtain ⟨_, _, _, hstate, _, _, _⟩ := stepWrite_elim hstep
          rw [hstate]
          exact readArg_snd_state_of_error m.Error a2 rfl
        · rw [doOR_eq (readArg_eta m a1)
            (readArg_of_invalid (m.readArg a1).2 hv hr)] at hstep
          obtain ⟨_, _, _, hstate, _, _, _⟩ := stepWrite_elim hstep
          rw [hstate]
          rfl
      · -- 14: NOT
        obtain ⟨a0, a1, rfl⟩ := list_len2 hlen
        simp [readOperands] at ha
        subst ha
        rw [show m.stepCase 14 [a0, a] = m.doNOT [a0, a] from rfl] at hstep
        rw [doNOT_eq (readArg_of_invalid m hv hr)] at hstep
        obtain ⟨_, _, _, hstate, _, _, _⟩ := stepWrite_elim hstep
        rw [hstate]
        rfl
      · -- 15: RMEM
        obtain ⟨a0, a1, rfl⟩ := list_len2 hlen
        simp [readOperands] at ha
        subst ha
        rw [show m.stepCase 15 [a0, a] = m.doRMEM [a0, a] from rfl] at hstep
        rw [doRMEM_eq (readArg_of_invalid m hv hr)] at hstep
        obtain ⟨w, hw, hstep⟩ := option_bind_eq_some hstep
        obtain ⟨regs, hre, hstep⟩ := option_bind_eq_some hstep
        simp only [Option.some_inj] at hstep
        subst hstep
        rfl
      · -- 16: WMEM
        obtain ⟨a0, a1, rfl⟩ := list_len2 hlen
        simp [readOperands] at ha
        rw [show m.stepCase 16 [a0, a1] = m.doWMEM [a0, a1] from rfl] at hstep
        rcases ha with rfl | rfl
        · rw [doWMEM_eq (readArg_of_invalid m hv hr) (readArg_eta m.Error a1)] at hstep
          obtain ⟨memory, hmem, hstep⟩ := option_bind_eq_some hstep
          simp only [Option.some_inj] at hstep
          subst hstep
          exact readArg_snd_state_of_error m.Error a1 rfl
        · rw [doWMEM_eq (readArg_eta m a0)
            (readArg_of_invalid (m.readArg a0).2 hv hr)] at hstep
          obtain ⟨memory, hmem, hstep⟩ := option_bind_eq_some hstep
          simp only [Option.some_inj] at hstep
          subst hstep
          rfl
      · -- 17: CALL
        obtain ⟨a0, rfl⟩ := list_len1 hlen
        simp [readOperands] at ha
        subst ha
        rw [show m.stepCase 17 [a] = m.doCALL [a] from rfl] at hstep
        rw [doCALL_eq (readArg_of_invalid
          { m with stack := m.nextProgramCounter 17 :: m.stack } hv hr)] at hstep
        simp only [Option.some_inj] at hstep
        subst hstep
        rfl
      · -- 18: RET reads nothing
        simp [readOperands] at ha
      · -- 19: OUT
        obtain ⟨a0, rfl⟩ := list_len1 hlen
        simp [readOperands] at ha
        subst ha
        rw [show m.stepCase 19 [a] = m.doOUT [a] from rfl] at hstep
        rw [doOUT_eq (readArg_of_invalid m hv hr)] at hstep
        simp only [Option.some_inj] at hstep
        subst hstep
        rfl
      · -- 20: IN
        obtain ⟨a0, rfl⟩ := list_len1 hlen
        by_cases hra : isReg a0 = true
        · simp [readOperands, hra] at ha
        · simp [readOperands, hra] at ha
          subst ha
          rw [show m.stepCase 20 [a] = m.doIN [a] from rfl] at hstep
          exact doIN_state_invalid hv hr hstep
      · -- 21: NOOP reads nothing
        simp [readOperands] at ha
  · intro m a0 hop hargs hv hr
    have hd := step_dispatch hop hargs
    rw [show m.stepCase 2 [a0] = m.doPUSH [a0] from rfl] at hd
    rw [doPUSH_eq (readArg_of_invalid m hv hr)] at hd
    rw [hd]
    rfl

/-- Witness for C2: the PUSH clause at the image `[2, 32776]`, and through
it the ERROR clause. -/
theorem C2_invalid_operand_errors_witness :
    (NewMachine [2, 32776] []).Step
      = some { (NewMachine [2, 32776] []).Error with
               stack := 0 :: (NewMachine [2, 32776] []).stack,
               pc := ((NewMachine [2, 32776] []).pc + 1 + 1) % 65536 } :=
  C2_invalid_operand_errors.2 (NewMachine [2, 32776] []) 32776 rfl
    (by rw [getArgs_eq (by decide)
          (by rw [NewMachine_memory_length _ _ (by decide)]; decide)]
        rfl)
    (by decide) (by decide)

end Synacor
